import Mathlib

/-!
Verification of the D1/SQLite data-access compatibility layer of the
twenty-on-Cloudflare-Workers repository.

The definitions below are shallow embeddings of the TypeScript source:

- packages/twenty-server/src/database/typeorm/d1/transformers/json.transformer.ts
- packages/twenty-server/src/database/typeorm/d1/transformers/array.transformer.ts
- packages/twenty-server/src/database/typeorm/d1/transformers/timestamp.transformer.ts
- packages/twenty-server/src/database/typeorm/d1/transformers/boolean.transformer.ts
- packages/twenty-server/src/database/typeorm/d1/query-helpers (like.helper.ts)
- packages/twenty-server/src/graphql/resolvers/d1-query-builder.ts
- packages/twenty-server/src/graphql/resolvers/search-resolver.ts

JavaScript strings are modelled as Lean strings or character lists; machine
numbers that only ever hold small non-negative counts are modelled as Nat,
signed values as Int.  Floating point JSON numbers are out of scope: the JSON
value model restricts numbers to integers, which is all the claims need.
-/

/-! ### JSON values

Model of the JSON-representable JavaScript values, the common domain of the
platform builtins JSON.stringify and JSON.parse used by json.transformer.ts
and array.transformer.ts.  The builtins are not part of the repository, so
they are modelled here concretely: an encoder producing the canonical compact
text (the output shape of JSON.stringify) and a total recursive-descent
parser (the behaviour of JSON.parse, returning none where the builtin would
throw).  The constructor Jv.null stands for the single JavaScript null
(undefined is merged into it, as the transformers themselves do). -/

inductive Jv where
  | null : Jv
  | bool : Bool → Jv
  | num : Int → Jv
  | str : List Char → Jv
  | arr : List Jv → Jv
  | obj : List (List Char × Jv) → Jv
deriving Repr

/-- The decimal digit character of n mod 10. -/
def digitChar (n : Nat) : Char := Char.ofNat (48 + n % 10)

/-- Decimal digits of a natural number, most significant first, pushed onto
an accumulator.  Fuel-based so that concrete values reduce in the kernel;
natChars supplies fuel n + 1, which always suffices. -/
def natCharsGo : Nat → Nat → List Char → List Char
  | 0, _, acc => acc
  | fuel + 1, n, acc =>
      if n < 10 then digitChar n :: acc
      else natCharsGo fuel (n / 10) (digitChar n :: acc)

/-- Decimal digit characters of a natural number. -/
def natChars (n : Nat) : List Char := natCharsGo (n + 1) n []

/-- Decimal characters of an integer: optional minus sign, then digits. -/
def intChars (i : Int) : List Char :=
  if i < 0 then '-' :: natChars i.natAbs else natChars i.natAbs

/-- JSON string-body escaping: quote and backslash get a backslash prefix,
every other character passes through (the escapes JSON.parse must undo;
control characters are not modelled, see the module comment). -/
def escChars : List Char → List Char
  | [] => []
  | c :: cs =>
      if c = '"' || c = '\\' then '\\' :: c :: escChars cs
      else c :: escChars cs

mutual
/-- Canonical compact JSON text of a value, as emitted by JSON.stringify. -/
def encV : Jv → List Char
  | .null => 'n' :: 'u' :: 'l' :: 'l' :: []
  | .bool true => 't' :: 'r' :: 'u' :: 'e' :: []
  | .bool false => 'f' :: 'a' :: 'l' :: 's' :: 'e' :: []
  | .num i => intChars i
  | .str s => '"' :: escChars s ++ ['"']
  | .arr xs => '[' :: encItems xs ++ [']']
  | .obj kvs => '{' :: encFields kvs ++ ['}']
/-- Comma-separated encodings of array elements. -/
def encItems : List Jv → List Char
  | [] => []
  | x :: xs => encV x ++ encSepItems xs
/-- The tail of an element list: each element preceded by a comma. -/
def encSepItems : List Jv → List Char
  | [] => []
  | x :: xs => ',' :: (encV x ++ encSepItems xs)
/-- Comma-separated encodings of object members. -/
def encFields : List (List Char × Jv) → List Char
  | [] => []
  | (k, v) :: kvs => '"' :: escChars k ++ '"' :: ':' :: encV v ++ encSepFields kvs
/-- The tail of a member list: each member preceded by a comma. -/
def encSepFields : List (List Char × Jv) → List Char
  | [] => []
  | (k, v) :: kvs =>
      ',' :: '"' :: escChars k ++ '"' :: ':' :: encV v ++ encSepFields kvs
end

/-- Whether a character is a decimal digit. -/
def isDigitC (c : Char) : Bool := 48 ≤ c.toNat && c.toNat ≤ 57

/-- Split off the longest leading run of digit characters. -/
def takeDigits : List Char → List Char × List Char
  | [] => ([], [])
  | c :: cs =>
      if isDigitC c then
        let r := takeDigits cs
        (c :: r.1, r.2)
      else ([], c :: cs)

/-- Numeric value of a digit-character list, most significant first. -/
def digitsToNat (ds : List Char) : Nat :=
  ds.foldl (fun a c => a * 10 + (c.toNat - 48)) 0

/-- Parse a leading natural number; fails when no digit leads. -/
def parseNatC (cs : List Char) : Option (Nat × List Char) :=
  match takeDigits cs with
  | ([], _) => none
  | (ds, r) => some (digitsToNat ds, r)

/-- Parse a JSON string body up to its closing quote, undoing escChars. -/
def parseStrBody : List Char → Option (List Char × List Char)
  | [] => none
  | '"' :: rest => some ([], rest)
  | '\\' :: c :: rest =>
      if c = '"' || c = '\\' then
        match parseStrBody rest with
        | some (s, r) => some (c :: s, r)
        | none => none
      else none
  | c :: rest =>
      match parseStrBody rest with
      | some (s, r) => some (c :: s, r)
      | none => none

mutual
/-- Parse one JSON value.  Fuel decreases on every mutual call; parseJson
supplies input length + 1, which the round-trip lemmas show is enough. -/
def parseV : Nat → List Char → Option (Jv × List Char)
  | 0, _ => none
  | _ + 1, 'n' :: 'u' :: 'l' :: 'l' :: rest => some (.null, rest)
  | _ + 1, 't' :: 'r' :: 'u' :: 'e' :: rest => some (.bool true, rest)
  | _ + 1, 'f' :: 'a' :: 'l' :: 's' :: 'e' :: rest => some (.bool false, rest)
  | _ + 1, '"' :: rest =>
      match parseStrBody rest with
      | some (s, r) => some (.str s, r)
      | none => none
  | fuel + 1, '[' :: rest =>
      (match parseItems fuel rest with
       | some (xs, r) => some (.arr xs, r)
       | none => none)
  | fuel + 1, '{' :: rest =>
      (match parseFields fuel rest with
       | some (kvs, r) => some (.obj kvs, r)
       | none => none)
  | _ + 1, '-' :: rest =>
      (match parseNatC rest with
       | some (n, r) => some (.num (-(n : Int)), r)
       | none => none)
  | _ + 1, cs =>
      (match parseNatC cs with
       | some (n, r) => some (.num (n : Int), r)
       | none => none)
/-- Parse the inside of an array, after the opening bracket. -/
def parseItems : Nat → List Char → Option (List Jv × List Char)
  | 0, _ => none
  | _ + 1, ']' :: rest => some ([], rest)
  | fuel + 1, cs =>
      (match parseV fuel cs with
       | some (v, r) =>
           (match parseSepItems fuel r with
            | some (xs, r2) => some (v :: xs, r2)
            | none => none)
       | none => none)
/-- Parse an array tail: a close bracket, or a comma and another element. -/
def parseSepItems : Nat → List Char → Option (List Jv × List Char)
  | 0, _ => none
  | _ + 1, ']' :: rest => some ([], rest)
  | fuel + 1, ',' :: cs =>
      (match parseV fuel cs with
       | some (v, r) =>
           (match parseSepItems fuel r with
            | some (xs, r2) => some (v :: xs, r2)
            | none => none)
       | none => none)
  | _ + 1, _ => none
/-- Parse the inside of an object, after the opening brace. -/
def parseFields : Nat → List Char → Option (List (List Char × Jv) × List Char)
  | 0, _ => none
  | _ + 1, '}' :: rest => some ([], rest)
  | fuel + 1, '"' :: cs =>
      (match parseStrBody cs with
       | some (k, r) =>
           (match r with
            | ':' :: r1 =>
                (match parseV fuel r1 with
                 | some (v, r2) =>
                     (match parseSepFields fuel r2 with
                      | some (kvs, r3) => some ((k, v) :: kvs, r3)
                      | none => none)
                 | none => none)
            | _ => none)
       | none => none)
  | _ + 1, _ => none
/-- Parse an object tail: a close brace, or a comma and another member. -/
def parseSepFields : Nat → List Char → Option (List (List Char × Jv) × List Char)
  | 0, _ => none
  | _ + 1, '}' :: rest => some ([], rest)
  | fuel + 1, ',' :: '"' :: cs =>
      (match parseStrBody cs with
       | some (k, r) =>
           (match r with
            | ':' :: r1 =>
                (match parseV fuel r1 with
                 | some (v, r2) =>
                     (match parseSepFields fuel r2 with
                      | some (kvs, r3) => some ((k, v) :: kvs, r3)
                      | none => none)
                 | none => none)
            | _ => none)
       | none => none)
  | _ + 1, _ => none
end

/-- The model of JSON.parse on a whole string: the parse must consume all
input; any failure that would make the builtin throw yields none. -/
def parseJson (s : String) : Option Jv :=
  match parseV (s.data.length + 1) s.data with
  | some (v, []) => some v
  | _ => none

/-- The model of JSON.stringify on a JSON-representable value. -/
def stringifyJson (v : Jv) : String := ⟨encV v⟩

mutual
/-- Fuel measure of a value: enough parser fuel to consume its encoding. -/
def jsize : Jv → Nat
  | .null => 1
  | .bool _ => 1
  | .num _ => 1
  | .str _ => 1
  | .arr xs => 1 + jsizeItems xs
  | .obj kvs => 1 + jsizeFields kvs
/-- Fuel measure of an array body. -/
def jsizeItems : List Jv → Nat
  | [] => 1
  | x :: xs => 1 + max (jsize x) (jsizeItems xs)
/-- Fuel measure of an object body. -/
def jsizeFields : List (List Char × Jv) → Nat
  | [] => 1
  | (_, v) :: kvs => 1 + max (jsize v) (jsizeFields kvs)
end

/-! ### Value transformers

Embeddings of json.transformer.ts, array.transformer.ts,
timestamp.transformer.ts and boolean.transformer.ts.  A TypeScript value of
type string | null is an Option String; the storage side of every transformer
is the same.  The TypeScript names to and from cannot both be kept (from is a
Lean keyword), so each transformer is embedded as a pair of plain functions
named after its source object. -/

/-- jsonTransformer.to: null and undefined store as null, everything else as
its JSON text.  A stringify failure (only possible on cyclic values, which
the inductive model cannot represent) is not reachable here. -/
def jsonTo : Jv → Option String
  | .null => none
  | v => some (stringifyJson v)

/-- jsonTransformer.from: null stays null; stored text is parsed, and a parse
failure is logged and yields null instead of raising. -/
def jsonFrom : Option String → Jv
  | none => .null
  | some s => (parseJson s).getD .null

/-- arrayTransformer.to: null stores as null; a non-array input is coerced to
a one-element array (with a warning); arrays store as their JSON text. -/
def arrayTo : Jv → Option String
  | .null => none
  | .arr xs => some (stringifyJson (.arr xs))
  | v => some (stringifyJson (.arr [v]))

/-- arrayTransformer.from: null reads as the empty list; stored text that
parses to a non-array is coerced to a one-element list (with a warning); a
parse failure is logged and yields the empty list instead of raising. -/
def arrayFrom : Option String → List Jv
  | none => []
  | some s =>
      match parseJson s with
      | some (.arr xs) => xs
      | some j => [j]
      | none => []

/-! #### Timestamps

A JavaScript Date restricted to what Date.prototype.toISOString prints and
what the Date constructor reads back from it: a UTC calendar tuple with
millisecond precision.  The Date builtin is external to the repository; it is
modelled by a printer for the fixed ISO 8601 shape YYYY-MM-DDTHH:MM:SS.mmmZ
and a parser for exactly that shape (the constructor accepts further formats,
which no claim depends on; an unparseable string models as none, the
constructor's invalid date). -/

structure JsDate where
  year : Nat
  month : Nat
  day : Nat
  hour : Nat
  minute : Nat
  second : Nat
  ms : Nat
deriving Repr, DecidableEq

/-- The dates the fixed-width ISO printer can represent faithfully.  The
day-in-month bound is the coarse 1..31 one, matching what the strict ISO
format itself constrains. -/
def JsDate.Valid (d : JsDate) : Prop :=
  d.year ≤ 9999 ∧ 1 ≤ d.month ∧ d.month ≤ 12 ∧ 1 ≤ d.day ∧ d.day ≤ 31 ∧
    d.hour ≤ 23 ∧ d.minute ≤ 59 ∧ d.second ≤ 59 ∧ d.ms ≤ 999

instance (d : JsDate) : Decidable d.Valid := by
  unfold JsDate.Valid
  infer_instance

/-- Two fixed-width decimal digits of n (n below 100). -/
def pad2 (n : Nat) : List Char := [digitChar (n / 10), digitChar n]

/-- Three fixed-width decimal digits of n (n below 1000). -/
def pad3 (n : Nat) : List Char := [digitChar (n / 100), digitChar (n / 10), digitChar n]

/-- Four fixed-width decimal digits of n (n below 10000). -/
def pad4 (n : Nat) : List Char :=
  [digitChar (n / 1000), digitChar (n / 100), digitChar (n / 10), digitChar n]

/-- The character list printed by Date.prototype.toISOString. -/
def isoChars (d : JsDate) : List Char :=
  pad4 d.year ++ '-' :: pad2 d.month ++ '-' :: pad2 d.day ++
    'T' :: pad2 d.hour ++ ':' :: pad2 d.minute ++ ':' :: pad2 d.second ++
    '.' :: pad3 d.ms ++ ['Z']

/-- Date.prototype.toISOString. -/
def toISOString (d : JsDate) : String := ⟨isoChars d⟩

/-- The numeric value of a digit character, none for a non-digit. -/
def readDigit (c : Char) : Option Nat :=
  if isDigitC c then some (c.toNat - 48) else none

/-- Read two decimal digits as one number. -/
def read2 : List Char → Option (Nat × List Char)
  | c1 :: c2 :: r => do
      let a ← readDigit c1
      let b ← readDigit c2
      some (a * 10 + b, r)
  | _ => none

/-- Read three decimal digits as one number. -/
def read3 : List Char → Option (Nat × List Char)
  | c1 :: r => do
      let a ← readDigit c1
      let (b, r2) ← read2 r
      some (a * 100 + b, r2)
  | _ => none

/-- Read four decimal digits as one number. -/
def read4 : List Char → Option (Nat × List Char)
  | c1 :: c2 :: r => do
      let a ← readDigit c1
      let b ← readDigit c2
      let (c, r2) ← read2 r
      some (a * 1000 + b * 100 + c, r2)
  | _ => none

/-- Require one exact character and consume it. -/
def expectChar (c : Char) : List Char → Option (List Char)
  | x :: r => if x = c then some r else none
  | [] => none

/-- Read the calendar-date part YYYY-MM-DD of an ISO string. -/
def readYmd (cs : List Char) : Option (Nat × Nat × Nat × List Char) := do
  let (y, r) ← read4 cs
  let r ← expectChar '-' r
  let (mo, r2) ← read2 r
  let r2 ← expectChar '-' r2
  let (da, r3) ← read2 r2
  some (y, mo, da, r3)

/-- Read the clock part HH:MM:SS of an ISO string. -/
def readHms (cs : List Char) : Option (Nat × Nat × Nat × List Char) := do
  let (ho, r) ← read2 cs
  let r ← expectChar ':' r
  let (mi, r2) ← read2 r
  let r2 ← expectChar ':' r2
  let (se, r3) ← read2 r2
  some (ho, mi, se, r3)

/-- Read the millisecond tail .mmmZ of an ISO string. -/
def readMsZ (cs : List Char) : Option (Nat × List Char) := do
  let r ← expectChar '.' cs
  let (ml, r2) ← read3 r
  let r2 ← expectChar 'Z' r2
  some (ml, r2)

/-- Whether the read field values lie in the calendar ranges the Date
constructor accepts for this shape. -/
def isoFieldsOk (mo da ho mi se : Nat) : Bool :=
  1 ≤ mo && mo ≤ 12 && 1 ≤ da && da ≤ 31 && ho ≤ 23 && mi ≤ 59 && se ≤ 59

/-- Model of new Date(s) restricted to the strict ISO shape: reads the fixed
fields, checks their calendar ranges, and yields none (an invalid date)
otherwise. -/
def jsParseDate (s : String) : Option JsDate := do
  let (y, mo, da, r) ← readYmd s.data
  let r ← expectChar 'T' r
  let (ho, mi, se, r2) ← readHms r
  let (ml, r3) ← readMsZ r2
  if r3 = [] && isoFieldsOk mo da ho mi se then
    some ⟨y, mo, da, ho, mi, se, ml⟩
  else none

/-- The write-side input domain of timestampTransformer.to: a Date, an
already-serialized string, or null/undefined. -/
inductive TsInput where
  | date : JsDate → TsInput
  | str : String → TsInput
  | null : TsInput

/-- timestampTransformer.to: Date values print via toISOString; strings are
validated through the Date constructor and re-printed, or returned as-is
(with a warning) when unparseable; null stores as null. -/
def timestampTo : TsInput → Option String
  | .null => none
  | .date d => some (toISOString d)
  | .str s =>
      match jsParseDate s with
      | some d => some (toISOString d)
      | none => some s

/-- timestampTransformer.from: null stays null; stored text goes through the
Date constructor, and an unparseable string is logged and yields null instead
of raising. -/
def timestampFrom : Option String → Option JsDate
  | none => none
  | some s => jsParseDate s

/-- The read-side input domain of booleanTransformer.from: the integer
encoding or a legacy textual encoding. -/
inductive BoolStored where
  | int : Int → BoolStored
  | str : String → BoolStored

/-- booleanTransformer.to: null stores as null, true as 1, false as 0. -/
def booleanTo : Option Bool → Option Int
  | none => none
  | some b => some (if b then 1 else 0)

/-- booleanTransformer.from: null stays null; a number reads as the test
against 1; a string reads as the legacy truthy test. -/
def booleanFrom : Option BoolStored → Option Bool
  | none => none
  | some (.int n) => some (decide (n = 1))
  | some (.str s) => some (s == "1" || s.toLower == "true")

/-! ### Cursors: btoa / atob and the cursor codec

The Workers platform builtins btoa and atob are modelled as real RFC 4648
base64 over the character codes of a Latin-1 string: btoa fails on a code
point above 255, atob fails on input that is not base64.  Only invertibility
and rejection of garbage matter to the claims; both are behaviours of the
real builtins. -/

/-- The base64 alphabet. -/
def b64Alphabet : List Char :=
  "ABCDEFGHIJKLMNOPQRSTUVWXYZabcdefghijklmnopqrstuvwxyz0123456789+/".data

/-- The base64 character of a 6-bit value. -/
def b64Char (n : Nat) : Char := b64Alphabet.getD n 'A'

/-- The 6-bit value of a base64 character, none for anything else. -/
def b64Val (c : Char) : Option Nat := b64Alphabet.findIdx? (· = c)

/-- Encode a byte list in 3-byte groups to 4-character base64 groups. -/
def b64EncGroups : List Nat → List Char
  | [] => []
  | [b1] => [b64Char (b1 / 4), b64Char (b1 % 4 * 16), '=', '=']
  | [b1, b2] =>
      [b64Char (b1 / 4), b64Char (b1 % 4 * 16 + b2 / 16), b64Char (b2 % 16 * 4), '=']
  | b1 :: b2 :: b3 :: rest =>
      b64Char (b1 / 4) :: b64Char (b1 % 4 * 16 + b2 / 16) ::
        b64Char (b2 % 16 * 4 + b3 / 64) :: b64Char (b3 % 64) :: b64EncGroups rest

/-- Decode 4-character base64 groups back to bytes; none on anything that is
not canonical base64. -/
def b64DecGroups : List Char → Option (List Nat)
  | [] => some []
  | [c1, c2, '=', '='] => do
      let v1 ← b64Val c1
      let v2 ← b64Val c2
      if v2 % 16 = 0 then some [v1 * 4 + v2 / 16] else none
  | [c1, c2, c3, '='] => do
      let v1 ← b64Val c1
      let v2 ← b64Val c2
      let v3 ← b64Val c3
      if v3 % 4 = 0 then some [v1 * 4 + v2 / 16, v2 % 16 * 16 + v3 / 4] else none
  | c1 :: c2 :: c3 :: c4 :: rest => do
      let v1 ← b64Val c1
      let v2 ← b64Val c2
      let v3 ← b64Val c3
      let v4 ← b64Val c4
      let bs ← b64DecGroups rest
      some ((v1 * 4 + v2 / 16) :: (v2 % 16 * 16 + v3 / 4) :: (v3 % 4 * 64 + v4) :: bs)
  | _ => none

/-- The btoa builtin: base64 of the byte string; none models the
InvalidCharacterError thrown on a code point above 255. -/
def btoa (s : String) : Option String :=
  if s.data.all (fun c => c.toNat < 256) then
    some ⟨b64EncGroups (s.data.map Char.toNat)⟩
  else none

/-- The atob builtin: none models the InvalidCharacterError thrown on input
that is not base64. -/
def atob (s : String) : Option String :=
  (b64DecGroups s.data).map (fun bs => ⟨bs.map Char.ofNat⟩)

/-- encodeCursor: btoa(JSON.stringify(\x7b id \x7d)).  On the opaque ids this
layer generates btoa cannot fail; getD covers the unreachable branch. -/
def encodeCursor (id : String) : String :=
  (btoa (stringifyJson (.obj [("id".data, .str id.data)]))).getD ""

/-- decodeCursor: JSON.parse(atob(cursor)) with the try/catch modelled as
Option; none is the null the source returns on any failure. -/
def decodeCursor (cursor : String) : Option Jv :=
  match atob cursor with
  | none => none
  | some s => parseJson s

/-- JavaScript property access o.k on a parsed JSON value; none is
undefined. -/
def jvGet (j : Jv) (k : String) : Option Jv :=
  match j with
  | .obj kvs => (kvs.find? (fun p => p.1 == k.data)).map (·.2)
  | _ => none

/-- JavaScript truthiness of a parsed JSON value. -/
def jsTruthy : Jv → Bool
  | .null => false
  | .bool b => b
  | .num n => decide (n ≠ 0)
  | .str s => decide (s ≠ [])
  | .arr _ => true
  | .obj _ => true

/-! ### Rows, filters and the query builder

Embedding of d1-query-builder.ts and of the resolver types it builds on.  A
stored row is a finite column assignment; a column value is text or NULL
(DbVal).  Numbers bound as parameters are modelled by their decimal text:
parameters are opaque to every property proved here. -/

/-- A D1/SQLite storage value of the entity tables: text or NULL. -/
abbrev DbVal := Option String

/-- An entity row: column name to value, in column order. -/
abbrev Row := List (String × DbVal)

/-- The value of a column; a column the row does not carry reads as NULL. -/
def rowVal (row : Row) (k : String) : DbVal :=
  ((row.find? (fun p => p.1 == k)).map (·.2)).getD none

/-- The operator set of a FilterCondition entry, types.ts.  A present key is
some, an absent key none (the source tests presence with the in operator);
a present in key that is not an array counts as absent, as the source skips
it. -/
structure FilterOps where
  eqv : Option DbVal
  neqv : Option DbVal
  inv : Option (List DbVal)
  likev : Option String
deriving Repr

/-- An empty operator set. -/
def FilterOps.none' : FilterOps := ⟨none, none, none, none⟩

/-- One FilterCondition entry value: null, a primitive literal, or an
operator set. -/
inductive FilterVal where
  | null : FilterVal
  | lit : String → FilterVal
  | ops : FilterOps → FilterVal
deriving Repr

/-- A FilterCondition: field name to entry, in insertion order (the order
Object.entries iterates). -/
abbrev FilterCondition := List (String × FilterVal)

/-- A double-quoted SQL identifier, as the template literals interpolate it. -/
def qid (field : String) : String := "\"" ++ field ++ "\""

/-- The conditions and parameters one filter entry contributes, in source
order: eq, neq, in, like. -/
def filterEntryConds : String × FilterVal → List String × List DbVal
  | (field, .null) => ([qid field ++ " IS NULL"], [])
  | (field, .lit s) => ([qid field ++ " = ?"], [some s])
  | (field, .ops o) =>
      let eqPart : List String × List DbVal :=
        match o.eqv with
        | some v => ([qid field ++ " = ?"], [v])
        | none => ([], [])
      let neqPart : List String × List DbVal :=
        match o.neqv with
        | some v => ([qid field ++ " != ?"], [v])
        | none => ([], [])
      let inPart : List String × List DbVal :=
        match o.inv with
        | some vs =>
            let placeholders := String.intercalate ", " (vs.map (fun _ => "?"))
            ([qid field ++ " IN (" ++ placeholders ++ ")"], vs)
        | none => ([], [])
      let likePart : List String × List DbVal :=
        match o.likev with
        | some s => ([qid field ++ " LIKE ? COLLATE NOCASE"], [some ("%" ++ s ++ "%")])
        | none => ([], [])
      (eqPart.1 ++ neqPart.1 ++ inPart.1 ++ likePart.1,
       eqPart.2 ++ neqPart.2 ++ inPart.2 ++ likePart.2)

/-- buildWhereClause: the tenant predicate first, then the soft-delete
predicate, then the caller filter conditions, joined with AND; parameters in
matching order, the workspace id first. -/
def buildWhereClause (filter : Option FilterCondition) (workspaceId : String) :
    String × List DbVal :=
  let base : List String := ["workspaceId = ?", "(\"deletedAt\" IS NULL)"]
  let baseParams : List DbVal := [some workspaceId]
  match filter with
  | none => (String.intercalate " AND " base, baseParams)
  | some f =>
      let parts : List (List String × List DbVal) := f.map filterEntryConds
      let conds := base ++ (parts.map (·.1)).flatten
      let params := baseParams ++ (parts.map (·.2)).flatten
      (String.intercalate " AND " conds, params)

/-- OrderBySpec, types.ts; direction and nulls keep their source string
values ASC / DESC and FIRST / LAST. -/
structure OrderBySpec where
  field : String
  direction : String
  nulls : Option String
deriving Repr

/-- buildOrderByClause: default ordering when no specification is given,
otherwise the given specifications, and always a final id ASC tiebreak. -/
def buildOrderByClause (orderBy : Option (List OrderBySpec)) : String :=
  match orderBy with
  | none => "ORDER BY \"createdAt\" DESC, \"id\" ASC"
  | some [] => "ORDER BY \"createdAt\" DESC, \"id\" ASC"
  | some specs =>
      let orderClauses := specs.map (fun spec =>
        let direction := if spec.direction = "" then "ASC" else spec.direction
        let nullsHandling :=
          match spec.nulls with
          | some nl => " NULLS " ++ nl
          | none => if direction = "ASC" then " NULLS FIRST" else " NULLS LAST"
        qid spec.field ++ " " ++ direction ++ nullsHandling)
      "ORDER BY " ++ String.intercalate ", " (orderClauses ++ ["\"id\" ASC"])

/-- PaginationArgs, types.ts. -/
structure PaginationArgs where
  first : Option Nat
  last : Option Nat
  before : Option String
  after : Option String
deriving Repr

/-- Pagination arguments with nothing set. -/
def PaginationArgs.none' : PaginationArgs := ⟨none, none, none, none⟩

/-- buildPaginationClause: limit is first ?? last ?? 50; the statement asks
for one row beyond it. -/
def buildPaginationClause (pagination : PaginationArgs) : String × Nat :=
  let limit :=
    match pagination.first with
    | some n => n
    | none =>
        match pagination.last with
        | some n => n
        | none => 50
  ("LIMIT " ++ toString (limit + 1), limit)

/-- JavaScript truthiness of an optional count (0 is falsy). -/
def optNatTruthy : Option Nat → Bool
  | none => false
  | some n => decide (n ≠ 0)

/-- JavaScript truthiness of an optional string (the empty string is falsy). -/
def optStrTruthy : Option String → Bool
  | none => false
  | some s => decide (s ≠ "")

/-- PageInfo, types.ts. -/
structure PageInfo where
  hasNextPage : Bool
  hasPreviousPage : Bool
  startCursor : Option String
  endCursor : Option String
deriving Repr, DecidableEq

/-- The id of a record, which every stored row carries. -/
def rowIdStr (r : Row) : String := (rowVal r "id").getD ""

/-- buildPageInfo: drop the probe row beyond the limit, reverse for backward
pagination, and shape the page flags and boundary cursors. -/
def buildPageInfo (records : List Row) (limit : Nat) (args : PaginationArgs) :
    List Row × PageInfo :=
  let hasExtraRecord := decide (records.length > limit)
  let trimmed0 := if hasExtraRecord then records.take limit else records
  let trimmedRecords :=
    if optNatTruthy args.last && !optNatTruthy args.first then trimmed0.reverse
    else trimmed0
  let pageInfo : PageInfo :=
    { hasNextPage :=
        if optNatTruthy args.first then hasExtraRecord else optStrTruthy args.before
      hasPreviousPage :=
        if optNatTruthy args.last then hasExtraRecord else optStrTruthy args.after
      startCursor := trimmedRecords.head?.map (fun r => encodeCursor (rowIdStr r))
      endCursor := trimmedRecords.getLast?.map (fun r => encodeCursor (rowIdStr r)) }
  (trimmedRecords, pageInfo)

/-! ### SQLite LIKE and the structural filter semantics

likeM models the SQLite LIKE operator as the generated queries use it: with
COLLATE NOCASE and, crucially, with no ESCAPE clause, so a backslash in the
pattern is an ordinary character.  whereDenotes is the row predicate the
condition list of buildWhereClause denotes when every field name is a plain
identifier: the conditions are joined with AND, and each condition is the
SQLite meaning of its operator (NULL compares as not-equal, as in SQL).
The C1 analysis shows the string level diverges from this compositional
reading when a field name carries SQL metacharacters. -/

/-- Fuel-driven LIKE matcher: percent matches any run, underscore one
character, anything else itself up to ASCII case. -/
def likeGo : Nat → List Char → List Char → Bool
  | 0, _, _ => false
  | _ + 1, [], [] => true
  | _ + 1, [], _ :: _ => false
  | fuel + 1, '%' :: ps, ts =>
      likeGo fuel ps ts ||
        (match ts with
         | [] => false
         | _ :: ts2 => likeGo fuel ('%' :: ps) ts2)
  | fuel + 1, '_' :: ps, _ :: ts => likeGo fuel ps ts
  | _ + 1, '_' :: _, [] => false
  | fuel + 1, p :: ps, t :: ts => (p.toLower = t.toLower) && likeGo fuel ps ts
  | _ + 1, _ :: _, [] => false

/-- SQLite LIKE ... COLLATE NOCASE without an ESCAPE clause. -/
def likeM (pattern text : List Char) : Bool :=
  likeGo ((pattern.length + 1) * (text.length + 1)) pattern text

/-- SQL equality on storage values: NULL never equals anything. -/
def sqlEqVal (a b : DbVal) : Bool :=
  match a, b with
  | some x, some y => x == y
  | _, _ => false

/-- SQL disequality on storage values: NULL is never not-equal either. -/
def sqlNeVal (a b : DbVal) : Bool :=
  match a, b with
  | some x, some y => x != y
  | _, _ => false

/-- The predicate one filter entry denotes on a row. -/
def condHolds (row : Row) : String × FilterVal → Bool
  | (f, .null) => rowVal row f == none
  | (f, .lit s) => sqlEqVal (rowVal row f) (some s)
  | (f, .ops o) =>
      (match o.eqv with
       | some v => sqlEqVal (rowVal row f) v
       | none => true) &&
      (match o.neqv with
       | some v => sqlNeVal (rowVal row f) v
       | none => true) &&
      (match o.inv with
       | some vs =>
           (match rowVal row f with
            | some x => vs.contains (some x)
            | none => false)
       | none => true) &&
      (match o.likev with
       | some pat =>
           (match rowVal row f with
            | some x => likeM ("%" ++ pat ++ "%").data x.data
            | none => false)
       | none => true)

/-- The row predicate of the WHERE clause buildWhereClause constructs:
tenant scoping, soft-delete exclusion, and the filter conditions, all
conjoined. -/
def whereDenotes (filter : Option FilterCondition) (ws : String) (row : Row) : Bool :=
  sqlEqVal (rowVal row "workspaceId") (some ws) &&
    (rowVal row "deletedAt" == none) &&
    (filter.getD []).all (condHolds row)

/-! ### The storage engine on WHERE clauses

buildWhereClause hands D1 a single SQL text.  To settle what rows that text
admits, the fragment grammar the generated clauses live in is given its
SQLite meaning: a tokenizer (spaces, double-quoted identifiers, the ? marker,
comparison and IS NULL forms, AND above OR, parentheses, and the -- line
comment that discards the rest of the clause line), a recursive-descent
parser honouring SQLite precedence, and a three-valued evaluator.  All of
this is external-engine semantics, not repository code; the read pipeline
below filters rows through it, so the model executes exactly the text the
source submits — including the injection behaviours of adversarial filter
field names. -/

/-- Tokens of the generated WHERE fragments. -/
inductive SqlTok where
  | ident : String → SqlTok
  | qident : String → SqlTok
  | qmark : SqlTok
  | lparen : SqlTok
  | rparen : SqlTok
  | eqT : SqlTok
  | neT : SqlTok
  | andT : SqlTok
  | orT : SqlTok
  | isT : SqlTok
  | notT : SqlTok
  | nullT : SqlTok
  | likeT : SqlTok
  | collateT : SqlTok
  | nocaseT : SqlTok
deriving Repr, DecidableEq

/-- Characters an unquoted identifier may continue with. -/
def isIdentChar (c : Char) : Bool := c.isAlpha || isDigitC c || c = '_'

/-- Keyword recognition on a completed word. -/
def keywordTok (w : String) : SqlTok :=
  if w = "AND" then .andT
  else if w = "OR" then .orT
  else if w = "IS" then .isT
  else if w = "NOT" then .notT
  else if w = "NULL" then .nullT
  else if w = "LIKE" then .likeT
  else if w = "COLLATE" then .collateT
  else if w = "NOCASE" then .nocaseT
  else .ident w

/-- Fuel-driven tokenizer; a -- comment ends the clause line, and anything
outside the fragment grammar is a tokenize failure. -/
def tokGo : Nat → List Char → Option (List SqlTok)
  | 0, _ => none
  | _ + 1, [] => some []
  | fuel + 1, c :: cs =>
      if c = ' ' then tokGo fuel cs
      else if c = '(' then (tokGo fuel cs).map (.lparen :: ·)
      else if c = ')' then (tokGo fuel cs).map (.rparen :: ·)
      else if c = '?' then (tokGo fuel cs).map (.qmark :: ·)
      else if c = '=' then (tokGo fuel cs).map (.eqT :: ·)
      else if c = '!' then
        match cs with
        | '=' :: cs2 => (tokGo fuel cs2).map (.neT :: ·)
        | _ => none
      else if c = '-' then
        match cs with
        | '-' :: _ => some []
        | _ => none
      else if c = '"' then
        match cs.span (· ≠ '"') with
        | (name, '"' :: cs2) => (tokGo fuel cs2).map (.qident ⟨name⟩ :: ·)
        | _ => none
      else if c.isAlpha then
        match (c :: cs).span isIdentChar with
        | (w, rest) => (tokGo fuel rest).map (keywordTok ⟨w⟩ :: ·)
      else none

/-- Tokenize a WHERE fragment. -/
def tokenizeSql (s : String) : Option (List SqlTok) :=
  tokGo (s.data.length + 1) s.data

/-- Expressions of the fragment grammar. -/
inductive SExpr where
  | col : String → SExpr
  | param : Nat → SExpr
  | isNullE : SExpr → SExpr
  | isNotNullE : SExpr → SExpr
  | eqE : SExpr → SExpr → SExpr
  | neE : SExpr → SExpr → SExpr
  | likeE : SExpr → SExpr → SExpr
  | andE : SExpr → SExpr → SExpr
  | orE : SExpr → SExpr → SExpr
deriving Repr, DecidableEq

/-- An operand: a column reference or the next positional parameter. -/
def parseOperand : List SqlTok → Nat → Option (SExpr × List SqlTok × Nat)
  | .ident s :: ts, pix => some (.col s, ts, pix)
  | .qident s :: ts, pix => some (.col s, ts, pix)
  | .qmark :: ts, pix => some (.param pix, ts, pix + 1)
  | _, _ => none

/-- The postfix and binary comparison forms an operand may continue into. -/
def parseSuffix (e : SExpr) : List SqlTok → Nat → Option (SExpr × List SqlTok × Nat)
  | .isT :: .notT :: .nullT :: ts, pix => some (.isNotNullE e, ts, pix)
  | .isT :: .nullT :: ts, pix => some (.isNullE e, ts, pix)
  | .eqT :: ts, pix =>
      (parseOperand ts pix).map (fun r => (.eqE e r.1, r.2.1, r.2.2))
  | .neT :: ts, pix =>
      (parseOperand ts pix).map (fun r => (.neE e r.1, r.2.1, r.2.2))
  | .likeT :: ts, pix =>
      match parseOperand ts pix with
      | some (b, .collateT :: .nocaseT :: ts2, pix2) => some (.likeE e b, ts2, pix2)
      | some (b, ts2, pix2) => some (.likeE e b, ts2, pix2)
      | none => none
  | ts, pix => some (e, ts, pix)

/-- A primary expression: an operand with its comparison suffix, possibly
parenthesised (the generated fragments only ever parenthesise a single
predicate, so parentheses here wrap one predicate). -/
def parsePrim : List SqlTok → Nat → Option (SExpr × List SqlTok × Nat)
  | .lparen :: ts, pix =>
      (match parseOperand ts pix with
       | some (e, ts2, pix2) =>
           (match parseSuffix e ts2 pix2 with
            | some (e2, .rparen :: ts3, pix3) => some (e2, ts3, pix3)
            | _ => none)
       | none => none)
  | ts, pix =>
      (match parseOperand ts pix with
       | some (e, ts2, pix2) => parseSuffix e ts2 pix2
       | none => none)

/-- The continuation of a left-associative AND chain. -/
def parseAndRest : Nat → SExpr → List SqlTok → Nat →
    Option (SExpr × List SqlTok × Nat)
  | 0, _, _, _ => none
  | fuel + 1, acc, .andT :: ts, pix =>
      (match parsePrim ts pix with
       | some (e, ts2, pix2) => parseAndRest fuel (.andE acc e) ts2 pix2
       | none => none)
  | _ + 1, acc, ts, pix => some (acc, ts, pix)

/-- A left-associative AND chain: AND binds tighter than OR. -/
def parseAndE (fuel : Nat) (ts : List SqlTok) (pix : Nat) :
    Option (SExpr × List SqlTok × Nat) :=
  match parsePrim ts pix with
  | some (e, ts2, pix2) => parseAndRest fuel e ts2 pix2
  | none => none

/-- The continuation of a left-associative OR chain. -/
def parseOrRest : Nat → SExpr → List SqlTok → Nat →
    Option (SExpr × List SqlTok × Nat)
  | 0, _, _, _ => none
  | fuel + 1, acc, .orT :: ts, pix =>
      (match parseAndE fuel ts pix with
       | some (e, ts2, pix2) => parseOrRest fuel (.orE acc e) ts2 pix2
       | none => none)
  | _ + 1, acc, ts, pix => some (acc, ts, pix)

/-- A left-associative OR chain over AND chains: OR binds loosest. -/
def parseOrE (fuel : Nat) (ts : List SqlTok) (pix : Nat) :
    Option (SExpr × List SqlTok × Nat) :=
  match parseAndE fuel ts pix with
  | some (e, ts2, pix2) => parseOrRest fuel e ts2 pix2
  | none => none

/-- Parse a complete WHERE fragment; the whole token list must be consumed. -/
def parseSqlWhere (s : String) : Option SExpr :=
  match tokenizeSql s with
  | none => none
  | some ts =>
      match parseOrE (ts.length + 1) ts 0 with
      | some (e, [], _) => some e
      | _ => none

/-- SQL three-valued truth. -/
inductive TV where
  | tt : TV
  | ff : TV
  | un : TV
deriving Repr, DecidableEq

/-- Three-valued AND. -/
def tvAnd : TV → TV → TV
  | .ff, _ => .ff
  | _, .ff => .ff
  | .tt, .tt => .tt
  | _, _ => .un

/-- Three-valued OR. -/
def tvOr : TV → TV → TV
  | .tt, _ => .tt
  | _, .tt => .tt
  | .ff, .ff => .ff
  | _, _ => .un

/-- The storage value of an operand on a row under bound parameters; none is
a statement error (a parameter index past the bound list). -/
def evalOperand : SExpr → Row → List DbVal → Option DbVal
  | .col c, row, _ => some (rowVal row c)
  | .param i, _, ps => ps.get? i
  | _, _, _ => none

/-- The SQLite truth value of a WHERE expression on a row.  A bare column
used as a boolean coerces: NULL is unknown, and the text values these tables
store coerce to 0, hence false. -/
def evalPred : SExpr → Row → List DbVal → Option TV
  | .andE a b, row, ps => do
      let x ← evalPred a row ps
      let y ← evalPred b row ps
      some (tvAnd x y)
  | .orE a b, row, ps => do
      let x ← evalPred a row ps
      let y ← evalPred b row ps
      some (tvOr x y)
  | .isNullE e, row, ps =>
      (evalOperand e row ps).map (fun v => if v.isNone then TV.tt else TV.ff)
  | .isNotNullE e, row, ps =>
      (evalOperand e row ps).map (fun v => if v.isNone then TV.ff else TV.tt)
  | .eqE a b, row, ps => do
      let x ← evalOperand a row ps
      let y ← evalOperand b row ps
      some (match x, y with
            | some u, some w => if u = w then TV.tt else TV.ff
            | _, _ => TV.un)
  | .neE a b, row, ps => do
      let x ← evalOperand a row ps
      let y ← evalOperand b row ps
      some (match x, y with
            | some u, some w => if u ≠ w then TV.tt else TV.ff
            | _, _ => TV.un)
  | .likeE a b, row, ps => do
      let x ← evalOperand a row ps
      let y ← evalOperand b row ps
      some (match x, y with
            | some t, some p => if likeM p.data t.data then TV.tt else TV.ff
            | _, _ => TV.un)
  | .col c, row, _ =>
      some (if (rowVal row c).isNone then TV.un else TV.ff)
  | .param i, _, ps =>
      (ps.get? i).map (fun v => if v.isNone then TV.un else TV.ff)

/-- Whether the generated WHERE text admits a row: parse the clause and ask
for three-valued truth; none is a statement the engine rejects. -/
def sqlWhereAccepts (clause : String) (ps : List DbVal) (row : Row) : Option Bool :=
  (parseSqlWhere clause).bind fun e =>
    (evalPred e row ps).map (fun t => t = TV.tt)

/-- The rows of a table the engine admits for a WHERE clause under bound
parameters: none when the engine rejects the statement (the clause does not
parse, or a parameter index is unbound). -/
def engineWhere (clause : String) (ps : List DbVal) (rows : List Row) :
    Option (List Row) :=
  match parseSqlWhere clause with
  | none => none
  | some e =>
      if rows.all (fun r => (evalPred e r ps).isSome) then
        some (rows.filter (fun r => decide (evalPred e r ps = some TV.tt)))
      else none

/-! ### ORDER BY semantics and the executeSelect pipeline -/

/-- Byte-wise character-list comparison, the SQLite BINARY collation on the
ASCII texts these tables store. -/
def strCmpL : List Char → List Char → Ordering
  | [], [] => .eq
  | [], _ :: _ => .lt
  | _ :: _, [] => .gt
  | a :: as2, b :: bs =>
      match compare a.toNat b.toNat with
      | .eq => strCmpL as2 bs
      | o => o

/-- BINARY collation on strings. -/
def strCmp (a b : String) : Ordering := strCmpL a.data b.data

/-- Compare two rows under one order specification, with the NULLS placement
the generated clause requests (defaulted from the direction as the source
does). -/
def specCmp (spec : OrderBySpec) (a b : Row) : Ordering :=
  let direction := if spec.direction = "" then "ASC" else spec.direction
  let nl := spec.nulls.getD (if direction = "ASC" then "FIRST" else "LAST")
  match rowVal a spec.field, rowVal b spec.field with
  | none, none => .eq
  | none, some _ => if nl = "FIRST" then .lt else .gt
  | some _, none => if nl = "FIRST" then .gt else .lt
  | some x, some y =>
      let o := strCmp x y
      if direction = "DESC" then o.swap else o

/-- Lexicographic comparison along the specification list, closed by the
forced final id ASC tiebreak. -/
def rowsCmp : List OrderBySpec → Row → Row → Ordering
  | [], a, b => strCmp ((rowVal a "id").getD "") ((rowVal b "id").getD "")
  | spec :: specs, a, b =>
      match specCmp spec a b with
      | .eq => rowsCmp specs a b
      | o => o

/-- The effective specification list of buildOrderByClause: the default
createdAt DESC when none is given. -/
def effOrderSpecs (orderBy : Option (List OrderBySpec)) : List OrderBySpec :=
  match orderBy with
  | none => [⟨"createdAt", "DESC", none⟩]
  | some [] => [⟨"createdAt", "DESC", none⟩]
  | some specs => specs

/-- Insert a row into a sorted list, keeping earlier rows on ties. -/
def insertSorted (le : Row → Row → Bool) (r : Row) : List Row → List Row
  | [] => [r]
  | x :: xs => if le r x then r :: x :: xs else x :: insertSorted le r xs

/-- Stable insertion sort, the model of the ORDER BY result order (the id
tiebreak makes the order total, so engine stability is irrelevant). -/
def sortRows (specs : List OrderBySpec) (rows : List Row) : List Row :=
  rows.foldr (insertSorted (fun a b => rowsCmp specs a b ≠ .gt)) []

/-- The values the cursor branch of executeSelect binds: a parsed cursor
field that is not a string is opaque to every claim and coarsens to NULL. -/
def jvToDb : Option Jv → DbVal
  | some (.str s) => some ⟨s⟩
  | _ => none

/-- The option object of executeSelect. -/
structure SelectOptions where
  filter : Option FilterCondition
  orderBy : Option (List OrderBySpec)
  pagination : PaginationArgs
  columns : List String
deriving Repr

/-- executeSelect defaults: no filter, no order, no pagination, all columns. -/
def SelectOptions.none' : SelectOptions := ⟨none, none, PaginationArgs.none', ["*"]⟩

/-- The number of parameter placeholders a statement text carries. -/
def countPlaceholders (q : String) : Nat := q.data.countP (· = '?')

/-- The main statement text and bound parameters executeSelect submits,
translated clause for clause: the template literal, and the cursor branch
that decodes pagination.after, rebuilds a WHERE clause for the cursor filter
and appends its parameters past the duplicate workspace id, without ever
adding the cursor conditions to the statement text. -/
def executeSelectStmt (tableName workspaceId : String) (options : SelectOptions) :
    String × List DbVal :=
  let wb := buildWhereClause options.filter workspaceId
  let orderByClause := buildOrderByClause options.orderBy
  let pc := buildPaginationClause options.pagination
  let params :=
    match options.pagination.after with
    | none => wb.2
    | some after =>
        match decodeCursor after with
        | none => wb.2
        | some decoded =>
            if jsTruthy decoded then
              let cursorFilter : FilterCondition :=
                [("id", .ops ⟨none, some (jvToDb (jvGet decoded "id")), none, none⟩)]
              let cwb := buildWhereClause (some cursorFilter) workspaceId
              wb.2 ++ cwb.2.drop 1
            else wb.2
  let columnList := String.intercalate ", " options.columns
  let query :=
    "\n    SELECT " ++ columnList ++
    "\n    FROM \"" ++ tableName ++ "\"" ++
    "\n    WHERE " ++ wb.1 ++
    "\n    " ++ orderByClause ++
    "\n    " ++ pc.1 ++
    "\n  "
  (query, params)

/-- The count statement executeSelect submits with the same parameters. -/
def executeCountStmt (tableName workspaceId : String) (options : SelectOptions) :
    String :=
  let wb := buildWhereClause options.filter workspaceId
  "\n    SELECT COUNT(*) as count" ++
  "\n    FROM \"" ++ tableName ++ "\"" ++
  "\n    WHERE " ++ wb.1 ++
  "\n  "

/-- The result shape of executeSelect. -/
structure SelectResult where
  records : List Row
  pageInfo : PageInfo
  totalCount : Nat
deriving Repr

/-- executeSelect against a table: build the statement, submit it (D1
rejects a bind whose parameter count differs from the placeholder count, and
the engine rejects a WHERE text that does not parse), model the returned
rows as the first limit + 1 rows — under the given ordering — of the row set
the engine admits for the generated WHERE text, and shape the connection
through buildPageInfo.  Filtering goes through engineWhere, the SQL-string
semantics of the clause, not through a compositional reading: an adversarial
filter field name changes the admitted set exactly as it does in SQLite. -/
def executeSelect (table : List Row) (tableName workspaceId : String)
    (options : SelectOptions) : Except String SelectResult :=
  let stmt := executeSelectStmt tableName workspaceId options
  let wb := buildWhereClause options.filter workspaceId
  let pc := buildPaginationClause options.pagination
  if countPlaceholders stmt.1 ≠ stmt.2.length then
    .error "D1_ERROR: wrong number of parameter bindings"
  else
    match engineWhere wb.1 wb.2 table with
    | none => .error "D1_ERROR: SQL parse error"
    | some admitted =>
        let matching := sortRows (effOrderSpecs options.orderBy) admitted
        let fetched := matching.take (pc.2 + 1)
        let shaped := buildPageInfo fetched pc.2 options.pagination
        if countPlaceholders (executeCountStmt tableName workspaceId options) ≠
            stmt.2.length then
          .error "D1_ERROR: wrong number of parameter bindings"
        else
          .ok ⟨shaped.1, shaped.2, matching.length⟩

/-- executeSelectOne against a table: the same scoped WHERE clause with
LIMIT 1, filtered through the same engine semantics; D1 first() yields the
first admitted row or none, and a statement the engine rejects raises. -/
def executeSelectOne (table : List Row) (workspaceId : String)
    (filter : FilterCondition) : Except String (Option Row) :=
  match engineWhere (buildWhereClause (some filter) workspaceId).1
      (buildWhereClause (some filter) workspaceId).2 table with
  | none => .error "D1_ERROR: SQL parse error"
  | some admitted => .ok admitted.head?

/-! ### Escape helpers and the keyword search resolver -/

/-- escapeLikePattern, like.helper.ts: backslash-escape percent, underscore
and backslash. -/
def escapeLikeChars : List Char → List Char
  | [] => []
  | c :: cs =>
      if c = '%' || c = '_' || c = '\\' then '\\' :: c :: escapeLikeChars cs
      else c :: escapeLikeChars cs

/-- escapeLikePattern on strings. -/
def escapeLikePattern (value : String) : String := ⟨escapeLikeChars value.data⟩

/-- escapeSearchQuery, search-resolver.ts: backslash-escape percent and
underscore only — the backslash itself is left alone. -/
def escapeSearchChars : List Char → List Char
  | [] => []
  | c :: cs =>
      if c = '%' || c = '_' then '\\' :: c :: escapeSearchChars cs
      else c :: escapeSearchChars cs

/-- escapeSearchQuery on strings. -/
def escapeSearchQuery (query : String) : String := ⟨escapeSearchChars query.data⟩

/-- Double every single quote, the replace the snippet interpolation applies
before inlining the pattern into the statement text. -/
def sqlQuoteDoubled : List Char → List Char
  | [] => []
  | c :: cs => if c = '\'' then '\'' :: '\'' :: sqlQuoteDoubled cs else c :: sqlQuoteDoubled cs

/-- likeNoCase, like.helper.ts: a case-insensitive LIKE fragment over a
column name and a placeholder. -/
def likeNoCase (column : String) (paramPlaceholder : String := "?") : String :=
  column ++ " LIKE " ++ paramPlaceholder ++ " COLLATE NOCASE"

/-- likeContains, like.helper.ts: wildcard-wrapped escaped pattern. -/
def likeContains (value : String) : String := "%" ++ escapeLikePattern value ++ "%"

/-- buildSearchQuery, search-resolver.ts: the statement text (field
conditions parameterised, the snippet CASE with the pattern inlined after
quote doubling) and the bound parameters (workspace id, one pattern per
field, and the limit, modelled by its decimal text). -/
def buildSearchQuery (tableName objectName : String) (searchFields : List String)
    (workspaceId query : String) (limit : Nat) : String × List DbVal :=
  let escapedQuery := escapeSearchQuery query
  let likePattern := "%" ++ escapedQuery ++ "%"
  let fieldConditions := String.intercalate " OR "
    (searchFields.map (fun field => qid field ++ " LIKE ? COLLATE NOCASE"))
  let snippetCase := String.intercalate " "
    (searchFields.map (fun field =>
      "WHEN " ++ qid field ++ " LIKE '" ++ String.mk (sqlQuoteDoubled likePattern.data) ++
        "' COLLATE NOCASE THEN SUBSTR(" ++ qid field ++ ", 1, 100)"))
  let label :=
    match searchFields with
    | [f] => qid f
    | fs => "COALESCE(" ++ String.intercalate ", " (fs.map qid) ++ ")"
  let sql :=
    "\n    SELECT\n      id,\n      '" ++ objectName ++ "' as objectName," ++
    "\n      id as recordId,\n      " ++ label ++ " as label," ++
    "\n      CASE " ++ snippetCase ++ " ELSE '' END as snippet," ++
    "\n      1 as score" ++
    "\n    FROM \"" ++ tableName ++ "\"" ++
    "\n    WHERE workspaceId = ?" ++
    "\n      AND \"deletedAt\" IS NULL" ++
    "\n      AND (" ++ fieldConditions ++ ")" ++
    "\n    LIMIT ?\n  "
  (sql, some workspaceId :: searchFields.map (fun _ => some likePattern) ++
    [some (toString limit)])

/-- The row predicate of the search WHERE clause: tenant scoping, soft-delete
exclusion, and a case-insensitive LIKE on any searchable field. -/
def searchRowMatches (ws : String) (searchFields : List String) (likePattern : String)
    (r : Row) : Bool :=
  sqlEqVal (rowVal r "workspaceId") (some ws) &&
    (rowVal r "deletedAt" == none) &&
    searchFields.any (fun f =>
      match rowVal r f with
      | some x => likeM likePattern.data x.data
      | none => false)

/-- The rows one per-entity search statement returns from a table. -/
def searchTable (table : List Row) (ws : String) (searchFields : List String)
    (query : String) (limitPerType : Nat) : List Row :=
  (table.filter
    (searchRowMatches ws searchFields ("%" ++ escapeSearchQuery query ++ "%"))).take
    limitPerType

/-! ### Mutations: insert, update, soft delete, hard delete

JavaScript object literals are modelled with their construction order
semantics: assigning to a present key overwrites its value in place, a new
key appends.  That order decides claim C5: in the literal the insert builds,
the fresh id comes before the caller data spread, while the workspace id and
the timestamps come after it. -/

/-- One JavaScript object-literal assignment. -/
def jsObjSet (o : Row) (k : String) (v : DbVal) : Row :=
  if o.any (fun p => p.1 == k) then
    o.map (fun p => if p.1 == k then (k, v) else p)
  else o ++ [(k, v)]

/-- Fold a field list into an object, literal style. -/
def jsObjOf (entries : Row) : Row :=
  entries.foldl (fun acc p => jsObjSet acc p.1 p.2) []

/-- The record executeInsert builds and stores: the object literal with the
generated id first, the caller data spread over it, then workspaceId,
createdAt and updatedAt.  The generated uuid and the current instant are
explicit arguments of the model. -/
def executeInsertRecord (freshId now workspaceId : String) (data : Row) : Row :=
  jsObjOf ([("id", some freshId)] ++ data ++
    [("workspaceId", some workspaceId), ("createdAt", some now),
     ("updatedAt", some now)])

/-- executeInsert against a table: append the built record. -/
def executeInsert (table : List Row) (freshId now workspaceId : String)
    (data : Row) : List Row × Row :=
  let record := executeInsertRecord freshId now workspaceId data
  (table ++ [record], record)

/-- The update object executeUpdate builds: the caller data spread, then the
refreshed updatedAt. -/
def executeUpdateSets (now : String) (data : Row) : Row :=
  jsObjOf (data ++ [("updatedAt", some now)])

/-- The UPDATE statement text and bound values executeUpdate submits: one SET
assignment per update key, the scope parameters last. -/
def executeUpdateStmt (tableName workspaceId id now : String) (data : Row) :
    String × List DbVal :=
  let updates := executeUpdateSets now data
  let setClauses := String.intercalate ", "
    (updates.map (fun p => qid p.1 ++ " = ?"))
  let values := updates.map (·.2) ++ [some workspaceId, some id]
  ("\n    UPDATE \"" ++ tableName ++ "\"" ++
   "\n    SET " ++ setClauses ++
   "\n    WHERE workspaceId = ? AND id = ?\n  ", values)

/-- The table after the UPDATE: every SET assignment applied to each row the
scope predicate matches. -/
def applyUpdate (table : List Row) (workspaceId id now : String) (data : Row) :
    List Row :=
  let updates := executeUpdateSets now data
  table.map (fun r =>
    if sqlEqVal (rowVal r "workspaceId") (some workspaceId) &&
        sqlEqVal (rowVal r "id") (some id) then
      updates.foldl (fun acc p => jsObjSet acc p.1 p.2) r
    else r)

/-- executeUpdate against a table: apply the UPDATE, then re-read the row the
way the source does (executeSelectOne with the id filter). -/
def executeUpdate (table : List Row) (workspaceId id now : String) (data : Row) :
    List Row × Except String (Option Row) :=
  let t := applyUpdate table workspaceId id now data
  (t, executeSelectOne t workspaceId [("id", .lit id)])

/-- The scope predicate of the soft-delete UPDATE: tenant, id, and not yet
deleted. -/
def isLiveMatch (workspaceId id : String) (r : Row) : Bool :=
  sqlEqVal (rowVal r "workspaceId") (some workspaceId) &&
    sqlEqVal (rowVal r "id") (some id) &&
    (rowVal r "deletedAt" == none)

/-- One row under the soft-delete UPDATE: deletedAt and updatedAt set when
the scope predicate matches, untouched otherwise. -/
def softDeleteRow (now workspaceId id : String) (r : Row) : Row :=
  if isLiveMatch workspaceId id r then
    jsObjSet (jsObjSet r "deletedAt" (some now)) "updatedAt" (some now)
  else r

/-- The table after the soft-delete UPDATE. -/
def applySoftDelete (table : List Row) (workspaceId id now : String) : List Row :=
  table.map (softDeleteRow now workspaceId id)

/-- The follow-up read of executeSoftDelete: tenant and id only, with no
deletedAt condition — the one read that returns a soft-deleted row. -/
def selectByIdIncludingDeleted (table : List Row) (workspaceId id : String) :
    Option Row :=
  (table.filter (fun r =>
    sqlEqVal (rowVal r "workspaceId") (some workspaceId) &&
      sqlEqVal (rowVal r "id") (some id))).head?

/-- executeSoftDelete against a table: the scoped conditional UPDATE, then
the unconditional follow-up read. -/
def executeSoftDelete (table : List Row) (workspaceId id now : String) :
    List Row × Option Row :=
  let t := applySoftDelete table workspaceId id now
  (t, selectByIdIncludingDeleted t workspaceId id)

/-- The table after the hard DELETE: rows matching tenant and id removed. -/
def applyHardDelete (table : List Row) (workspaceId id : String) : List Row :=
  table.filter (fun r =>
    !(sqlEqVal (rowVal r "workspaceId") (some workspaceId) &&
      sqlEqVal (rowVal r "id") (some id)))

/-- executeHardDelete against a table: the DELETE, and whether any row was
removed (meta.changes > 0). -/
def executeHardDelete (table : List Row) (workspaceId id : String) :
    List Row × Bool :=
  let t := applyHardDelete table workspaceId id
  (t, decide (t.length ≠ table.length))

/-! ### Concrete fixtures the claim theorems evaluate -/

/-- An adversarial filter field name: a caller-controlled key carrying SQL
metacharacters.  Interpolated unescaped into the condition template it yields
the condition
  "id" IS NULL OR "id" IS NOT NULL AND "deletedAt" IS NULL
whose OR, binding loosest, escapes the AND chain of the whole clause. -/
def evilField : String := "id\" IS NULL OR \"id\" IS NOT NULL AND \"deletedAt"

/-- The adversarial filter: the evil field name compared with null. -/
def advFilter : FilterCondition := [(evilField, .null)]

/-- A live row of tenant T2. -/
def rowTenant2 : Row :=
  [("id", some "r9"), ("workspaceId", some "T2"),
   ("createdAt", some "2024-03-05T08:00:00.000Z"),
   ("updatedAt", some "2024-03-05T08:00:00.000Z"),
   ("deletedAt", none), ("title", some "tenant two secret")]

/-- The WHERE clause and parameters of a T1-scoped read with the adversarial
filter. -/
def advWhere : String × List DbVal := buildWhereClause (some advFilter) "T1"

/-- The WHERE clause and parameters of a T1-scoped read with no filter. -/
def benignWhere : String × List DbVal := buildWhereClause none "T1"

/-- Scenario B: three task rows of one tenant with distinct createdAt. -/
def taskRow1 : Row :=
  [("id", some "t1"), ("workspaceId", some "T1"),
   ("createdAt", some "2024-01-01T00:00:00.000Z"),
   ("updatedAt", some "2024-01-01T00:00:00.000Z"),
   ("deletedAt", none), ("title", some "first task")]

/-- Scenario B, second row. -/
def taskRow2 : Row :=
  [("id", some "t2"), ("workspaceId", some "T1"),
   ("createdAt", some "2024-01-02T00:00:00.000Z"),
   ("updatedAt", some "2024-01-02T00:00:00.000Z"),
   ("deletedAt", none), ("title", some "second task")]

/-- Scenario B, third row. -/
def taskRow3 : Row :=
  [("id", some "t3"), ("workspaceId", some "T1"),
   ("createdAt", some "2024-01-03T00:00:00.000Z"),
   ("updatedAt", some "2024-01-03T00:00:00.000Z"),
   ("deletedAt", none), ("title", some "third task")]

/-- Scenario B table. -/
def taskTable : List Row := [taskRow1, taskRow2, taskRow3]

/-- Scenario B ordering: createdAt DESC. -/
def scenarioBOrder : List OrderBySpec := [⟨"createdAt", "DESC", none⟩]

/-- Scenario B, first page request: page size 2. -/
def scenarioBPage1 : SelectOptions :=
  ⟨none, some scenarioBOrder, ⟨some 2, none, none, none⟩, ["*"]⟩

/-- Scenario B, second page request: page size 2 resumed after the end
cursor the first page returned (the cursor of t2). -/
def scenarioBPage2 : SelectOptions :=
  ⟨none, some scenarioBOrder, ⟨some 2, none, none, some (encodeCursor "t2")⟩, ["*"]⟩

/-- A soft-deleted row of tenant T1. -/
def deletedRow : Row :=
  [("id", some "d1"), ("workspaceId", some "T1"),
   ("createdAt", some "2024-01-04T00:00:00.000Z"),
   ("updatedAt", some "2024-02-01T00:00:00.000Z"),
   ("deletedAt", some "2024-02-01T00:00:00.000Z"), ("title", some "gone")]

/-- A table holding one live and one soft-deleted row of T1. -/
def mixedTable : List Row := [taskRow1, deletedRow]

/-- An adversarial filter field name whose injected disjunction bypasses the
soft-delete predicate as well as the tenant predicate: interpolated into the
IS NULL condition template it yields
  "x" IS NULL OR "id" IS NOT NULL OR "y" IS NULL
and the middle disjunct holds of every stored row. -/
def evilField2 : String := "x\" IS NULL OR \"id\" IS NOT NULL OR \"y"

/-- The soft-delete-bypassing filter: the second evil field compared with
null. -/
def advFilter2 : FilterCondition := [(evilField2, .null)]

/-- A table holding only a soft-deleted row of T1. -/
def deletedOnlyTable : List Row := [deletedRow]

/-- Whether the input cannot extend a number: empty or headed by a
non-digit.  Everything a JSON encoder places after a number qualifies. -/
def noDigitHead : List Char → Bool
  | [] => true
  | c :: _ => !isDigitC c

/-! ## Theorems

First the round-trip chain for the JSON codec model, then the ISO timestamp
codec, then list-level lemmas for pagination and scoping, and finally the
claim theorems C1 to C10. -/

theorem digitChar_isDigit (n : Nat) : isDigitC (digitChar n) = true := by
  have h : n % 10 < 10 := Nat.mod_lt _ (by omega)
  unfold digitChar
  generalize n % 10 = m at *
  interval_cases m <;> decide

theorem digitChar_val (n : Nat) : (digitChar n).toNat - 48 = n % 10 := by
  have h : n % 10 < 10 := Nat.mod_lt _ (by omega)
  unfold digitChar
  generalize n % 10 = m at *
  interval_cases m <;> decide

theorem natCharsGo_acc (fuel : Nat) : ∀ n acc,
    natCharsGo fuel n acc = natCharsGo fuel n [] ++ acc := by
  induction fuel with
  | zero => intro n acc; simp [natCharsGo]
  | succ f ih =>
      intro n acc
      by_cases h : n < 10
      · simp [natCharsGo, h]
      · simp only [natCharsGo, if_neg h]
        rw [ih (n / 10) (digitChar n :: acc), ih (n / 10) [digitChar n]]
        simp

theorem natCharsGo_unfold (f n : Nat) :
    natCharsGo (f + 1) n [] =
      (if n < 10 then [] else natCharsGo f (n / 10) []) ++ [digitChar n] := by
  by_cases h : n < 10
  · simp [natCharsGo, h]
  · simp only [natCharsGo, if_neg h]
    exact natCharsGo_acc f (n / 10) [digitChar n]

theorem natCharsGo_digits (fuel : Nat) : ∀ n, n < fuel →
    ∀ c ∈ natCharsGo fuel n [], isDigitC c = true := by
  induction fuel with
  | zero => intro n h; omega
  | succ f ih =>
      intro n hn c hc
      rw [natCharsGo_unfold] at hc
      rcases List.mem_append.mp hc with h1 | h        
      · by_cases h10 : n < 10
        · simp [h10] at h1
        · have hdiv : n / 10 < n := Nat.div_lt_self (by omega) (by omega)
          exact ih (n / 10) (by omega) c (by simpa [h10] using h1)
      · rw [List.mem_singleton] at h
        subst h
        exact digitChar_isDigit n

theorem natCharsGo_ne_nil (f n : Nat) : natCharsGo (f + 1) n [] ≠ [] := by
  rw [natCharsGo_unfold]; simp

theorem natCharsGo_val (fuel : Nat) : ∀ n, n < fuel →
    digitsToNat (natCharsGo fuel n []) = n := by
  induction fuel with
  | zero => intro n h; omega
  | succ f ih =>
      intro n hn
      rw [natCharsGo_unfold]
      by_cases h : n < 10
      · simp only [if_pos h, List.nil_append]
        simp [digitsToNat, digitChar_val]
        omega
      · simp only [if_neg h]
        unfold digitsToNat
        rw [List.foldl_append]
        have hdiv : n / 10 < n := Nat.div_lt_self (by omega) (by omega)
        have := ih (n / 10) (by omega)
        unfold digitsToNat at this
        rw [this]
        simp [digitChar_val]
        omega

theorem natChars_digits (n : Nat) : ∀ c ∈ natChars n, isDigitC c = true :=
  natCharsGo_digits (n + 1) n (by omega)

theorem natChars_ne_nil (n : Nat) : natChars n ≠ [] :=
  natCharsGo_ne_nil n n

theorem natChars_val (n : Nat) : digitsToNat (natChars n) = n :=
  natCharsGo_val (n + 1) n (by omega)

theorem takeDigits_append : ∀ ds : List Char, (∀ c ∈ ds, isDigitC c = true) →
    ∀ rest : List Char, noDigitHead rest = true →
    takeDigits (ds ++ rest) = (ds, rest) := by
  intro ds
  induction ds with
  | nil =>
      intro _ rest hr
      cases rest with
      | nil => rfl
      | cons c t =>
          simp only [noDigitHead, Bool.not_eq_true'] at hr
          simp [takeDigits, hr]
  | cons d ds ih =>
      intro hd rest hr
      have hdd : isDigitC d = true := hd d (by simp)
      have ih2 := ih (fun c hc => hd c (by simp [hc])) rest hr
      simp only [List.cons_append, takeDigits, hdd, if_pos, List.append_eq]
      rw [ih2]

theorem parseNatC_natChars (n : Nat) (rest : List Char)
    (hr : noDigitHead rest = true) :
    parseNatC (natChars n ++ rest) = some (n, rest) := by
  unfold parseNatC
  rw [takeDigits_append (natChars n) (natChars_digits n) rest hr]
  cases h : natChars n with
  | nil => exact absurd h (natChars_ne_nil n)
  | cons c cs =>
      simp only []
      rw [← h, natChars_val]

theorem parseStrBody_esc : ∀ s rest,
    parseStrBody (escChars s ++ '"' :: rest) = some (s, rest) := by
  intro s
  induction s with
  | nil => intro rest; rfl
  | cons c cs ih =>
      intro rest
      by_cases hq : c = '"'
      · subst hq
        simp [escChars, parseStrBody, ih]
      by_cases hb : c = '\\'
      · subst hb
        simp [escChars, parseStrBody, ih]
      · have hcond : (c = '"' || c = '\\') = false := by
          simp [hq, hb]
        simp only [escChars, hcond, Bool.false_eq_true, if_false, List.cons_append]
        rw [parseStrBody.eq_def]
        simp [hq, hb, ih]

theorem natChars_head (n : Nat) :
    ∃ c cs, natChars n = c :: cs ∧ isDigitC c = true := by
  cases h : natChars n with
  | nil => exact absurd h (natChars_ne_nil n)
  | cons c cs =>
      refine ⟨c, cs, rfl, ?_⟩
      exact natChars_digits n c (h ▸ List.mem_cons_self c cs)

theorem digit_not_lead {c : Char} (hc : isDigitC c = true) :
    c ≠ 'n' ∧ c ≠ 't' ∧ c ≠ 'f' ∧ c ≠ '"' ∧ c ≠ '[' ∧ c ≠ '{' ∧ c ≠ '-' := by
  refine ⟨?_, ?_, ?_, ?_, ?_, ?_, ?_⟩ <;>
    (intro h1; subst h1; exact absurd hc (by decide))

set_option maxHeartbeats 1000000 in
theorem parseV_natLead (f n : Nat) (rest : List Char)
    (hr : noDigitHead rest = true) :
    parseV (f + 1) (natChars n ++ rest) = some (.num (n : Int), rest) := by
  obtain ⟨c, cs, hn, hc⟩ := natChars_head n
  obtain ⟨h1, h2, h3, h4, h5, h6, h7⟩ := digit_not_lead hc
  have hpn := parseNatC_natChars n rest hr
  rw [hn, List.cons_append] at hpn ⊢
  rw [parseV.eq_def]
  split <;> simp_all

theorem digit_ne_delims {c : Char} (hc : isDigitC c = true) :
    c ≠ ']' ∧ c ≠ ',' ∧ c ≠ '}' := by
  refine ⟨?_, ?_, ?_⟩ <;> (intro h1; subst h1; exact absurd hc (by decide))

theorem encV_head (v : Jv) :
    ∃ c cs, encV v = c :: cs ∧ c ≠ ']' ∧ c ≠ ',' ∧ c ≠ '}' := by
  have hlead : ∀ c : Char, c ∈ ['n', 't', 'f', '"', '[', '{', '-'] →
      c ≠ ']' ∧ c ≠ ',' ∧ c ≠ '}' := by decide
  cases v with
  | num i =>
      by_cases hi : i < 0
      · refine ⟨'-', natChars i.natAbs, ?_, hlead '-' (by decide)⟩
        simp [encV, intChars, hi]
      · obtain ⟨c, cs, hcn, hc⟩ := natChars_head i.natAbs
        obtain ⟨d1, d2, d3⟩ := digit_ne_delims hc
        refine ⟨c, cs, ?_, d1, d2, d3⟩
        simp [encV, intChars, hi, hcn]
  | bool b =>
      cases b
      · exact ⟨'f', _, rfl, hlead 'f' (by decide)⟩
      · exact ⟨'t', _, rfl, hlead 't' (by decide)⟩
  | null => exact ⟨'n', _, rfl, hlead 'n' (by decide)⟩
  | str s => exact ⟨'"', _, rfl, hlead '"' (by decide)⟩
  | arr xs => exact ⟨'[', _, rfl, hlead '[' (by decide)⟩
  | obj kvs => exact ⟨'{', _, rfl, hlead '{' (by decide)⟩

theorem parseItems_cons (f : Nat) (c : Char) (l : List Char) (h : c ≠ ']')
    (v : Jv) (r : List Char) (xs : List Jv) (r2 : List Char)
    (hv : parseV f (c :: l) = some (v, r))
    (hx : parseSepItems f r = some (xs, r2)) :
    parseItems (f + 1) (c :: l) = some (v :: xs, r2) := by
  rw [parseItems.eq_def]
  split <;> simp_all

theorem jsize_pos (v : Jv) : 1 ≤ jsize v := by
  cases v <;> simp [jsize]

theorem jsizeItems_pos (xs : List Jv) : 1 ≤ jsizeItems xs := by
  cases xs with
  | nil => simp [jsizeItems]
  | cons x xs => simp [jsizeItems]

theorem jsizeFields_pos (kvs : List (List Char × Jv)) : 1 ≤ jsizeFields kvs := by
  cases kvs with
  | nil => simp [jsizeFields]
  | cons kv kvs => cases kv; simp [jsizeFields]

theorem noDigitHead_sepItems (xs : List Jv) (rest : List Char) :
    noDigitHead (encSepItems xs ++ ']' :: rest) = true := by
  cases xs <;> simp [encSepItems, noDigitHead, isDigitC]

theorem noDigitHead_sepFields (kvs : List (List Char × Jv)) (rest : List Char) :
    noDigitHead (encSepFields kvs ++ '}' :: rest) = true := by
  cases kvs with
  | nil => simp [encSepFields, noDigitHead, isDigitC]
  | cons kv kvs => cases kv; simp [encSepFields, noDigitHead, isDigitC]

set_option maxHeartbeats 2000000 in
theorem rtAll : ∀ fuel : Nat,
    (∀ v rest, jsize v ≤ fuel → noDigitHead rest = true →
      parseV fuel (encV v ++ rest) = some (v, rest)) ∧
    (∀ xs rest, jsizeItems xs ≤ fuel →
      parseItems fuel (encItems xs ++ ']' :: rest) = some (xs, rest)) ∧
    (∀ xs rest, jsizeItems xs ≤ fuel →
      parseSepItems fuel (encSepItems xs ++ ']' :: rest) = some (xs, rest)) ∧
    (∀ kvs rest, jsizeFields kvs ≤ fuel →
      parseFields fuel (encFields kvs ++ '}' :: rest) = some (kvs, rest)) ∧
    (∀ kvs rest, jsizeFields kvs ≤ fuel →
      parseSepFields fuel (encSepFields kvs ++ '}' :: rest) = some (kvs, rest)) := by
  intro fuel
  induction fuel with
  | zero =>
      refine ⟨?_, ?_, ?_, ?_, ?_⟩
      · intro v rest hs _; exact absurd hs (by have := jsize_pos v; omega)
      · intro xs rest hs; exact absurd hs (by have := jsizeItems_pos xs; omega)
      · intro xs rest hs; exact absurd hs (by have := jsizeItems_pos xs; omega)
      · intro kvs rest hs; exact absurd hs (by have := jsizeFields_pos kvs; omega)
      · intro kvs rest hs; exact absurd hs (by have := jsizeFields_pos kvs; omega)
  | succ fuel ih =>
      obtain ⟨ihV, ihI, ihSI, ihF, ihSF⟩ := ih
      refine ⟨?_, ?_, ?_, ?_, ?_⟩
      · intro v rest hs hr
        cases v with
        | null => simp [encV, parseV]
        | bool b => cases b <;> simp [encV, parseV]
        | num i =>
            by_cases hi : i < 0
            · have hpn := parseNatC_natChars i.natAbs rest hr
              simp only [encV, intChars, if_pos hi, List.cons_append]
              simp [parseV, hpn]
              rw [abs_of_nonpos (by omega), neg_neg]
            · have := parseV_natLead fuel i.natAbs rest hr
              simp only [encV, intChars, if_neg hi]
              rw [this]
              have h0 : (i.natAbs : Int) = i := by omega
              rw [h0]
        | str s =>
            simp [encV, parseV, List.cons_append, List.append_assoc,
              parseStrBody_esc]
        | arr xs =>
            have hxs : jsizeItems xs ≤ fuel := by
              simp [jsize] at hs; omega
            have hI := ihI xs rest hxs
            simp [encV, parseV, List.cons_append, List.append_assoc, hI]
        | obj kvs =>
            have hkvs : jsizeFields kvs ≤ fuel := by
              simp [jsize] at hs; omega
            have hF := ihF kvs rest hkvs
            simp [encV, parseV, List.cons_append, List.append_assoc, hF]
      · intro xs rest hs
        cases xs with
        | nil => simp [encItems, parseItems]
        | cons x xs =>
            obtain ⟨c, cs, hcv, hc1, hc2, hc3⟩ := encV_head x
            have hsx : jsize x ≤ fuel := by
              simp [jsizeItems] at hs; omega
            have hsxs : jsizeItems xs ≤ fuel := by
              simp [jsizeItems] at hs; omega
            have hv := ihV x (encSepItems xs ++ ']' :: rest) hsx
              (noDigitHead_sepItems xs rest)
            have hx := ihSI xs rest hsxs
            rw [hcv, List.cons_append] at hv
            rw [show encItems (x :: xs) ++ ']' :: rest =
                c :: (cs ++ (encSepItems xs ++ ']' :: rest)) from by
              simp [encItems, hcv, List.append_assoc]]
            exact parseItems_cons fuel c _ hc1 x _ xs rest hv hx
      · intro xs rest hs
        cases xs with
        | nil => simp [encSepItems, parseSepItems]
        | cons x xs =>
            have hsx : jsize x ≤ fuel := by
              simp [jsizeItems] at hs; omega
            have hsxs : jsizeItems xs ≤ fuel := by
              simp [jsizeItems] at hs; omega
            have hv := ihV x (encSepItems xs ++ ']' :: rest) hsx
              (noDigitHead_sepItems xs rest)
            have hx := ihSI xs rest hsxs
            simp [encSepItems, parseSepItems, List.cons_append,
              List.append_assoc, hv, hx]
      · intro kvs rest hs
        cases kvs with
        | nil => simp [encFields, parseFields]
        | cons kv kvs =>
            obtain ⟨k, v⟩ := kv
            have hsv : jsize v ≤ fuel := by
              simp [jsizeFields] at hs; omega
            have hskvs : jsizeFields kvs ≤ fuel := by
              simp [jsizeFields] at hs; omega
            have hv := ihV v (encSepFields kvs ++ '}' :: rest) hsv
              (noDigitHead_sepFields kvs rest)
            have hx := ihSF kvs rest hskvs
            simp [encFields, parseFields, List.cons_append, List.append_assoc,
              parseStrBody_esc, hv, hx]
      · intro kvs rest hs
        cases kvs with
        | nil => simp [encSepFields, parseSepFields]
        | cons kv kvs =>
            obtain ⟨k, v⟩ := kv
            have hsv : jsize v ≤ fuel := by
              simp [jsizeFields] at hs; omega
            have hskvs : jsizeFields kvs ≤ fuel := by
              simp [jsizeFields] at hs; omega
            have hv := ihV v (encSepFields kvs ++ '}' :: rest) hsv
              (noDigitHead_sepFields kvs rest)
            have hx := ihSF kvs rest hskvs
            simp [encSepFields, parseSepFields, List.cons_append,
              List.append_assoc, parseStrBody_esc, hv, hx]

mutual
theorem jsize_le_encV : ∀ v : Jv, jsize v ≤ (encV v).length + 1
  | .null => by simp [jsize, encV]
  | .bool b => by cases b <;> simp [jsize, encV]
  | .str s => by simp [jsize, encV]
  | .num i => by simp [jsize]
  | .arr xs => by
      have := jsizeItems_le_encItems xs
      simp [jsize, encV]
      omega
  | .obj kvs => by
      have := jsizeFields_le_encFields kvs
      simp [jsize, encV]
      omega
theorem jsizeItems_le_encItems : ∀ xs : List Jv,
    jsizeItems xs ≤ (encItems xs).length + 2
  | [] => by simp [jsizeItems, encItems]
  | x :: xs => by
      have h1 := jsize_le_encV x
      have h2 := jsizeItems_le_encSepItems xs
      simp [jsizeItems, encItems]
      omega
theorem jsizeItems_le_encSepItems : ∀ xs : List Jv,
    jsizeItems xs ≤ (encSepItems xs).length + 1
  | [] => by simp [jsizeItems, encSepItems]
  | x :: xs => by
      have h1 := jsize_le_encV x
      have h2 := jsizeItems_le_encSepItems xs
      simp [jsizeItems, encSepItems]
      omega
theorem jsizeFields_le_encFields : ∀ kvs : List (List Char × Jv),
    jsizeFields kvs ≤ (encFields kvs).length + 2
  | [] => by simp [jsizeFields, encFields]
  | (k, v) :: kvs => by
      have h1 := jsize_le_encV v
      have h2 := jsizeFields_le_encSepFields kvs
      simp [jsizeFields, encFields]
      omega
theorem jsizeFields_le_encSepFields : ∀ kvs : List (List Char × Jv),
    jsizeFields kvs ≤ (encSepFields kvs).length + 1
  | [] => by simp [jsizeFields, encSepFields]
  | (k, v) :: kvs => by
      have h1 := jsize_le_encV v
      have h2 := jsizeFields_le_encSepFields kvs
      simp [jsizeFields, encSepFields]
      omega
end

/-- The codec round trip behind the json and array transformers: parsing the
canonical text of any value recovers the value. -/
theorem parseJson_stringify (v : Jv) : parseJson (stringifyJson v) = some v := by
  unfold parseJson stringifyJson
  have hd : (String.mk (encV v)).data = encV v := rfl
  rw [hd]
  have hfuel : jsize v ≤ (encV v).length + 1 := jsize_le_encV v
  have := (rtAll ((encV v).length + 1)).1 v [] hfuel (by rfl)
  rw [List.append_nil] at this
  rw [this]

theorem readDigit_digitChar (n : Nat) : readDigit (digitChar n) = some (n % 10) := by
  have h : n % 10 < 10 := Nat.mod_lt _ (by omega)
  unfold readDigit digitChar
  generalize n % 10 = m at *
  interval_cases m <;> decide

theorem read2_pad2 (n : Nat) (rest : List Char) (h : n < 100) :
    read2 (pad2 n ++ rest) = some (n, rest) := by
  have h1 : n / 10 % 10 = n / 10 := Nat.mod_eq_of_lt (by omega)
  simp [pad2, read2, readDigit_digitChar, h1]
  omega

theorem read3_pad3 (n : Nat) (rest : List Char) (h : n < 1000) :
    read3 (pad3 n ++ rest) = some (n, rest) := by
  have h1 : n / 100 % 10 = n / 100 := Nat.mod_eq_of_lt (by omega)
  have h2 := read2_pad2 (n % 100) rest (by omega)
  have h3 : pad2 (n % 100) = [digitChar (n % 100 / 10), digitChar (n % 100)] := rfl
  have h4 : digitChar (n % 100 / 10) = digitChar (n / 10) := by
    unfold digitChar
    congr 1
    omega
  have h5 : digitChar (n % 100) = digitChar n := by
    unfold digitChar
    congr 1
    omega
  rw [h3, h4, h5] at h2
  simp only [List.cons_append, List.nil_append] at h2
  simp [pad3, read3, readDigit_digitChar, h1, h2]
  omega

theorem read4_pad4 (n : Nat) (rest : List Char) (h : n < 10000) :
    read4 (pad4 n ++ rest) = some (n, rest) := by
  have h1 : n / 1000 % 10 = n / 1000 := Nat.mod_eq_of_lt (by omega)
  have h3 := read2_pad2 (n % 100) rest (by omega)
  have h4 : pad2 (n % 100) = [digitChar (n % 100 / 10), digitChar (n % 100)] := rfl
  have h5 : digitChar (n % 100 / 10) = digitChar (n / 10) := by
    unfold digitChar; congr 1; omega
  have h6 : digitChar (n % 100) = digitChar n := by
    unfold digitChar; congr 1; omega
  rw [h4, h5, h6] at h3
  simp only [List.cons_append, List.nil_append] at h3
  simp [pad4, read4, readDigit_digitChar, h1, h3]
  omega

/-- The timestamp codec round trip: the Date constructor reads back exactly
the instant toISOString printed. -/
theorem jsParseDate_toISOString (d : JsDate) (h : d.Valid) :
    jsParseDate (toISOString d) = some d := by
  obtain ⟨y, mo, da, ho, mi, se, ml⟩ := d
  simp only [JsDate.Valid] at h
  obtain ⟨h1, h2, h3, h4, h5, h6, h7, h8, h9⟩ := h
  unfold jsParseDate
  have hdata : (toISOString ⟨y, mo, da, ho, mi, se, ml⟩).data =
      isoChars ⟨y, mo, da, ho, mi, se, ml⟩ := rfl
  rw [hdata]
  simp only [isoChars, List.append_assoc, List.cons_append]
  simp [readYmd, readHms, readMsZ, expectChar,
    read4_pad4 y _ (by omega), read2_pad2 mo _ (by omega),
    read2_pad2 da _ (by omega), read2_pad2 ho _ (by omega),
    read2_pad2 mi _ (by omega), read2_pad2 se _ (by omega),
    read3_pad3 ml _ (by omega), isoFieldsOk]
  omega

/-- Inserting into a sorted list grows it by one. -/
theorem insertSorted_length (le : Row → Row → Bool) (r : Row) (l : List Row) :
    (insertSorted le r l).length = l.length + 1 := by
  induction l with
  | nil => rfl
  | cons x xs ih =>
      unfold insertSorted
      split
      · simp
      · simp [ih]

theorem foldr_insertSorted_length (le : Row → Row → Bool) (rows : List Row) :
    (rows.foldr (insertSorted le) []).length = rows.length := by
  induction rows with
  | nil => rfl
  | cons x xs ih => rw [List.foldr_cons, insertSorted_length, ih]; rfl

theorem sortRows_length (specs : List OrderBySpec) (rows : List Row) :
    (sortRows specs rows).length = rows.length :=
  foldr_insertSorted_length _ rows

/-- What a successful executeSelect returns, extracted from the bind-arity
guards and the engine's acceptance of the generated WHERE text. -/
theorem executeSelect_ok (table : List Row) (tn ws : String) (opts : SelectOptions)
    (res : SelectResult) (h : executeSelect table tn ws opts = .ok res) :
    ∃ admitted : List Row,
      engineWhere (buildWhereClause opts.filter ws).1
        (buildWhereClause opts.filter ws).2 table = some admitted ∧
      res = ⟨(buildPageInfo ((sortRows (effOrderSpecs opts.orderBy) admitted).take
                ((buildPaginationClause opts.pagination).2 + 1))
              (buildPaginationClause opts.pagination).2 opts.pagination).1,
             (buildPageInfo ((sortRows (effOrderSpecs opts.orderBy) admitted).take
                ((buildPaginationClause opts.pagination).2 + 1))
              (buildPaginationClause opts.pagination).2 opts.pagination).2,
             (sortRows (effOrderSpecs opts.orderBy) admitted).length⟩ := by
  unfold executeSelect at h
  dsimp only at h
  split at h
  · cases h
  · split at h
    · cases h
    · rename_i admitted heq
      split at h
      · cases h
      · cases h
        exact ⟨admitted, heq, rfl⟩

/-- Claim C3: amended to positive page sizes.  For every paginated read with
requested page size n of at least 1, via first or via last, a successful
executeSelect returns at most n rows while the statement asks for n + 1;
with first, hasNextPage is true exactly when more engine-admitted rows exist
beyond the page under the given ordering; with last, backward pagination
reverses the page and the symmetric flag hasPreviousPage carries the same
contract.  At n = 0 both halves of the unrestricted claim fail — 0 is falsy,
so buildPageInfo routes the flag to the truthiness of the absent cursor
arguments; see the counterexample theorem. -/
theorem c3_pagination_bound (table : List Row) (tn ws : String)
    (filter : Option FilterCondition) (orderBy : Option (List OrderBySpec))
    (p : PaginationArgs) (n : Nat) (res : SelectResult) (hn : 0 < n)
    (hp : p.first = some n ∨ (p.first = none ∧ p.last = some n))
    (h : executeSelect table tn ws ⟨filter, orderBy, p, ["*"]⟩ = .ok res) :
    (buildPaginationClause p).1 = "LIMIT " ++ toString (n + 1) ∧
    res.records.length ≤ n ∧
    (p.first = some n → (res.pageInfo.hasNextPage = true ↔ n < res.totalCount)) ∧
    (p.first = none ∧ p.last = some n →
      (res.pageInfo.hasPreviousPage = true ↔ n < res.totalCount)) := by
  obtain ⟨admitted, hadm, hres⟩ := executeSelect_ok table tn ws _ res h
  subst hres
  obtain ⟨f, l, b, a⟩ := p
  have hn0 : n ≠ 0 := by omega
  have hfirst : optNatTruthy (some n) = true := by
    simp [optNatTruthy]; omega
  rcases hp with hf | ⟨hf, hl⟩
  · dsimp only at hf
    subst hf
    have hpc : (buildPaginationClause ⟨some n, l, b, a⟩).2 = n := rfl
    rw [hpc]
    unfold buildPageInfo
    dsimp only
    rw [hfirst]
    simp only [Bool.not_true, Bool.and_false, Bool.false_eq_true, if_false,
      if_true]
    refine ⟨rfl, ?_, ?_, ?_⟩
    · split
      · simp
      · next hc =>
          simp only [decide_eq_true_eq, Nat.not_lt] at hc
          omega
    · intro _
      simp only [List.length_take, decide_eq_true_eq]
      omega
    · rintro ⟨hc, -⟩
      cases hc
  · dsimp only at hf hl
    subst hf
    subst hl
    have hpc : (buildPaginationClause ⟨none, some n, b, a⟩).2 = n := rfl
    rw [hpc]
    unfold buildPageInfo
    dsimp only
    rw [hfirst]
    have hnone : optNatTruthy (none : Option Nat) = false := rfl
    rw [hnone]
    simp only [Bool.not_false, Bool.and_true, Bool.false_eq_true, if_false,
      if_true, List.length_reverse]
    refine ⟨rfl, ?_, ?_, ?_⟩
    · split
      · simp
      · next hc =>
          simp only [decide_eq_true_eq, Nat.not_lt] at hc
          omega
    · intro hc
      cases hc
    · rintro ⟨-, -⟩
      simp only [List.length_take, decide_eq_true_eq]
      omega

theorem find_map_set (k : String) (v : DbVal) (r : Row)
    (h : r.any (fun p => p.1 == k) = true) :
    (r.map (fun p => if p.1 == k then (k, v) else p)).find? (fun p => p.1 == k) =
      some (k, v) := by
  induction r with
  | nil => simp at h
  | cons p r ih =>
      by_cases hp : (p.1 == k) = true
      · simp only [List.map_cons, if_pos hp, List.find?_cons, BEq.refl]
      · have hp2 : (p.1 == k) = false := by
          rw [← Bool.not_eq_true]; exact hp
        simp only [List.any_cons, hp2, Bool.false_or] at h
        simp only [List.map_cons, hp2, Bool.false_eq_true, if_false,
          List.find?_cons]
        exact ih h

theorem find_map_set_ne (k k' : String) (v : DbVal) (r : Row)
    (hne : (k' == k) = false) :
    (r.map (fun p => if p.1 == k then (k, v) else p)).find? (fun p => p.1 == k') =
      r.find? (fun p => p.1 == k') := by
  have hkk : (k == k') = false := by
    simp only [beq_eq_false_iff_ne] at hne ⊢
    exact fun hh => hne hh.symm
  induction r with
  | nil => rfl
  | cons p r ih =>
      by_cases hp : (p.1 == k) = true
      · have hp1 : p.1 = k := by simpa using hp
        have hk2 : (p.1 == k') = false := by rw [hp1]; exact hkk
        simp only [List.map_cons, if_pos hp, List.find?_cons, hkk, hk2, ih]
      · by_cases hq : (p.1 == k') = true
        · simp only [List.map_cons, if_neg hp, List.find?_cons, hq]
        · simp only [List.map_cons, if_neg hp, List.find?_cons, hq, ih]

theorem rowVal_append_single_self (r : Row) (k : String) (v : DbVal)
    (h : r.any (fun p => p.1 == k) = false) :
    rowVal (r ++ [(k, v)]) k = v := by
  unfold rowVal
  have h1 : r.find? (fun p => p.1 == k) = none := by
    rw [List.find?_eq_none]
    intro x hx
    rw [List.any_eq_false] at h
    exact h x hx
  rw [List.find?_append, h1]
  simp [List.find?]

theorem rowVal_jsObjSet_self (r : Row) (k : String) (v : DbVal) :
    rowVal (jsObjSet r k v) k = v := by
  unfold jsObjSet
  by_cases h : r.any (fun p => p.1 == k) = true
  · rw [if_pos h]
    unfold rowVal
    rw [find_map_set k v r h]
    rfl
  · rw [if_neg h]
    rw [Bool.not_eq_true] at h
    exact rowVal_append_single_self r k v h

theorem rowVal_jsObjSet_ne (r : Row) (k : String) (v : DbVal) (k' : String)
    (hne : k' ≠ k) : rowVal (jsObjSet r k v) k' = rowVal r k' := by
  have hb : (k' == k) = false := beq_eq_false_iff_ne.mpr hne
  unfold jsObjSet
  by_cases h : r.any (fun p => p.1 == k) = true
  · rw [if_pos h]
    unfold rowVal
    rw [find_map_set_ne k k' v r hb]
  · rw [if_neg h]
    unfold rowVal
    have hkk : (k == k') = false := by
      simp only [beq_eq_false_iff_ne] at hb ⊢
      exact fun hh => hb hh.symm
    have hlast : ([(k, v)] : Row).find? (fun p => p.1 == k') = none := by
      simp only [List.find?_cons, hkk]
      rfl
    rw [List.find?_append, hlast]
    cases hf : r.find? (fun p => p.1 == k') <;> simp

theorem softDeleteRow_idem (now now2 ws id : String) (r : Row) :
    softDeleteRow now2 ws id (softDeleteRow now ws id r) = softDeleteRow now ws id r := by
  by_cases h : isLiveMatch ws id r = true
  · unfold softDeleteRow
    rw [if_pos h]
    have hd : rowVal (jsObjSet (jsObjSet r "deletedAt" (some now)) "updatedAt"
        (some now)) "deletedAt" = some now := by
      rw [rowVal_jsObjSet_ne _ _ _ _ (by decide), rowVal_jsObjSet_self]
    have hlive : isLiveMatch ws id (jsObjSet (jsObjSet r "deletedAt" (some now))
        "updatedAt" (some now)) = false := by
      unfold isLiveMatch
      rw [hd]
      simp
    rw [if_neg (by rw [hlive]; exact Bool.false_ne_true)]
  · unfold softDeleteRow
    rw [if_neg h, if_neg h]

theorem applySoftDelete_idem (table : List Row) (ws id now now2 : String) :
    applySoftDelete (applySoftDelete table ws id now) ws id now2 =
      applySoftDelete table ws id now := by
  unfold applySoftDelete
  rw [List.map_map]
  apply List.map_congr_left
  intro r _
  exact softDeleteRow_idem now now2 ws id r

/-- Claim C1: false of the code.  Reads scoped to tenant T1 were claimed to
return only T1 rows for every caller-supplied filter because the tenant
predicate is the first WHERE condition; but buildWhereClause interpolates
filter field names unescaped into the clause text, so an adversarial field
name injects an OR that escapes the AND chain: the generated clause admits a
live row of tenant T2 under T1 scoping, while the compositional reading of
the same filter rejects that row, as does the unfiltered clause. -/
theorem c1_tenant_isolation_broken :
    rowVal rowTenant2 "workspaceId" = some "T2" ∧
    whereDenotes (some advFilter) "T1" rowTenant2 = false ∧
    sqlWhereAccepts advWhere.1 advWhere.2 rowTenant2 = some true ∧
    sqlWhereAccepts benignWhere.1 benignWhere.2 rowTenant2 = some false :=
  ⟨rfl, rfl, rfl, rfl⟩

/-- Claim C2: false of the code.  Scenario B — three rows of one tenant,
page size 2 ordered by createdAt DESC.  The first page returns two rows with
hasNextPage true and an end cursor, but the second request passing that
cursor as after fails with a D1 bind-arity error: executeSelect appends the
cursor parameters to the bind list without ever adding the cursor conditions
to the statement text. -/
theorem c2_cursor_pagination_broken :
    executeSelect taskTable "task" "T1" scenarioBPage1 =
      .ok ⟨[taskRow3, taskRow2],
        ⟨true, false, some (encodeCursor "t3"), some (encodeCursor "t2")⟩, 3⟩ ∧
    executeSelect taskTable "task" "T1" scenarioBPage2 =
      .error "D1_ERROR: wrong number of parameter bindings" :=
  ⟨rfl, rfl⟩

/-- Claim C3, counterexamples to the unrestricted page-size claim, one per
pagination direction: with first = 0 and with last = 0 the read returns no
rows while three admitted rows exist beyond the empty page (the totalCount
of the result), yet hasNextPage and hasPreviousPage are both false — 0 is
falsy, so buildPageInfo falls back to the truthiness of the absent cursor
arguments instead of the probe row. -/
theorem c3_zero_page_size_counterexample :
    executeSelect taskTable "task" "T1"
      ⟨none, none, ⟨some 0, none, none, none⟩, ["*"]⟩ =
      .ok ⟨[], ⟨false, false, none, none⟩, 3⟩ ∧
    executeSelect taskTable "task" "T1"
      ⟨none, none, ⟨none, some 0, none, none⟩, ["*"]⟩ =
      .ok ⟨[], ⟨false, false, none, none⟩, 3⟩ :=
  ⟨rfl, rfl⟩

/-- Witness: C3 forward at page size 2 over the scenario-B table. -/
theorem c3_pagination_bound_witness :
    (buildPaginationClause ⟨some 2, none, none, none⟩).1 =
      "LIMIT " ++ toString (2 + 1) ∧
    ([taskRow3, taskRow2] : List Row).length ≤ 2 ∧
    ((some 2 : Option Nat) = some 2 → ((true : Bool) = true ↔ 2 < 3)) ∧
    ((some 2 : Option Nat) = none ∧ (none : Option Nat) = some 2 →
      ((false : Bool) = true ↔ 2 < 3)) :=
  c3_pagination_bound taskTable "task" "T1" none (some scenarioBOrder)
    ⟨some 2, none, none, none⟩ 2
    ⟨[taskRow3, taskRow2],
     ⟨true, false, some (encodeCursor "t3"), some (encodeCursor "t2")⟩, 3⟩
    (by decide) (Or.inl rfl) rfl

/-- Claim C4: the document, list, timestamp and boolean transformers satisfy
the round-trip law on their accepted values: deserialize after serialize is
the identity, including the null and empty edge cases — null documents and
timestamps read back as null, a null list cell reads as the empty list, and
every array (the empty one included) round-trips. -/
theorem c4_transformer_round_trips :
    (∀ v : Jv, jsonFrom (jsonTo v) = v) ∧
    (∀ xs : List Jv, arrayFrom (arrayTo (.arr xs)) = xs) ∧
    arrayFrom (arrayTo .null) = ([] : List Jv) ∧
    (∀ d : JsDate, d.Valid → timestampFrom (timestampTo (.date d)) = some d) ∧
    timestampFrom (timestampTo .null) = none ∧
    (∀ b : Option Bool, booleanFrom ((booleanTo b).map BoolStored.int) = b) := by
  refine ⟨?_, ?_, rfl, ?_, rfl, ?_⟩
  · intro v
    cases v with
    | null => rfl
    | bool b => simp only [jsonTo, jsonFrom, parseJson_stringify, Option.getD_some]
    | num i => simp only [jsonTo, jsonFrom, parseJson_stringify, Option.getD_some]
    | str s => simp only [jsonTo, jsonFrom, parseJson_stringify, Option.getD_some]
    | arr xs => simp only [jsonTo, jsonFrom, parseJson_stringify, Option.getD_some]
    | obj kvs => simp only [jsonTo, jsonFrom, parseJson_stringify, Option.getD_some]
  · intro xs
    simp only [arrayTo, arrayFrom, parseJson_stringify]
  · intro d h
    simp only [timestampTo, timestampFrom]
    exact jsParseDate_toISOString d h
  · intro b
    cases b with
    | none => rfl
    | some bb => cases bb <;> rfl

/-- Witness: C4 at a concrete document and a concrete date. -/
theorem c4_transformer_round_trips_witness :
    jsonFrom (jsonTo (.num 5)) = Jv.num 5 ∧
    timestampFrom (timestampTo (.date ⟨2024, 1, 2, 3, 4, 5, 6⟩)) =
      some ⟨2024, 1, 2, 3, 4, 5, 6⟩ :=
  ⟨c4_transformer_round_trips.1 (.num 5),
   c4_transformer_round_trips.2.2.2.1 ⟨2024, 1, 2, 3, 4, 5, 6⟩ (by decide)⟩

/-- Claim C5: false of the code.  A row's id and tenant are mutable:
executeInsert spreads the caller data after the generated id, so a caller
data object carrying an id key overwrites the fresh uuid; and executeUpdate
builds one SET assignment per caller data key with no exclusions, so an
update carrying workspaceId or id rewrites those columns in place. -/
theorem c5_id_and_tenant_mutable :
    rowVal (executeInsertRecord "fresh-uuid-1" "2024-05-01T00:00:00.000Z" "T1"
      [("id", some "caller-id")]) "id" = some "caller-id" ∧
    (applyUpdate taskTable "T1" "t1" "2024-05-02T00:00:00.000Z"
      [("workspaceId", some "T2")]).map (fun r => rowVal r "workspaceId") =
      [some "T2", some "T1", some "T1"] ∧
    (applyUpdate taskTable "T1" "t1" "2024-05-02T00:00:00.000Z"
      [("id", some "evil2")]).map (fun r => rowVal r "id") =
      [some "evil2", some "t2", some "t3"] :=
  ⟨rfl, rfl, rfl⟩

/-- Claim C6: false of the code.  escapeSearchQuery escapes percent and
underscore but not the backslash (escapeLikePattern escapes all three); the
snippet CASE of buildSearchQuery inlines the pattern into the statement text,
so the query text varies with the user value instead of the value flowing
only through bound parameters; and the like filter of buildWhereClause binds
the user literal with no escaping at all, so a literal percent in a filter
value acts as a wildcard and matches a row whose text holds no percent. -/
theorem c6_injection_surface :
    escapeSearchQuery "\\" = "\\" ∧
    escapeLikePattern "\\" = "\\\\" ∧
    (buildSearchQuery "task" "task" ["title"] "W1" "a" 10).1 ≠
      (buildSearchQuery "task" "task" ["title"] "W1" "b" 10).1 ∧
    whereDenotes (some [("title", .ops ⟨none, none, none, some "%"⟩)]) "T1"
      taskRow1 = true ∧
    ("first task".data.any (· = '%')) = false :=
  ⟨rfl, rfl, by decide, rfl, rfl⟩

/-- Claim C7: amended.  Deserialize of the document, list and timestamp
transformers never raises on malformed stored text: unparseable JSON reads as
null for documents and as the empty list for lists, and an unparseable
timestamp reads as null.  But stored text that parses to a non-array value is
coerced by the list transformer to the one-element list of it, not the
claimed empty list — see the counterexample theorem. -/
theorem c7_malformed_value_recovery :
    (∀ s : String, parseJson s = none →
        jsonFrom (some s) = Jv.null ∧ arrayFrom (some s) = []) ∧
    (∀ s : String, jsParseDate s = none → timestampFrom (some s) = none) ∧
    (∀ (s : String) (j : Jv), parseJson s = some j → (∀ xs, j ≠ Jv.arr xs) →
        arrayFrom (some s) = [j]) := by
  refine ⟨?_, ?_, ?_⟩
  · intro s h
    constructor
    · simp only [jsonFrom, h, Option.getD_none]
    · simp only [arrayFrom, h]
  · intro s h
    simp only [timestampFrom, h]
  · intro s j hp hna
    simp only [arrayFrom]
    rw [hp]
    cases j with
    | arr xs => exact absurd rfl (hna xs)
    | null => rfl
    | bool b => rfl
    | num i => rfl
    | str cs => rfl
    | obj kvs => rfl

/-- Witness: C7 at concrete unparseable stored texts. -/
theorem c7_malformed_value_recovery_witness :
    (jsonFrom (some "not json") = Jv.null ∧ arrayFrom (some "not json") = []) ∧
    timestampFrom (some "garbage") = none :=
  ⟨c7_malformed_value_recovery.1 "not json" rfl,
   c7_malformed_value_recovery.2.1 "garbage" rfl⟩

/-- Claim C7, counterexample to the claimed empty-list default: the stored
text 5 parses as a JSON number, and the list transformer returns the
one-element list holding it, which is not the empty list. -/
theorem c7_nonarray_counterexample :
    parseJson "5" = some (Jv.num 5) ∧
    arrayFrom (some "5") = [Jv.num 5] ∧
    ([Jv.num 5] : List Jv) ≠ [] :=
  ⟨rfl, rfl, by simp⟩

/-- Claim C8: false of the code.  Soft-deleted rows were claimed excluded
from every default scoped read; but the reads execute the WHERE text
buildWhereClause generates, and an adversarial filter field name injects a
disjunction that escapes the soft-delete predicate along with the rest of
the AND chain: under such a filter both executeSelect and executeSelectOne
return a soft-deleted row, while the same reads with a benign filter
correctly exclude it. -/
theorem c8_soft_delete_bypass :
    rowVal deletedRow "deletedAt" = some "2024-02-01T00:00:00.000Z" ∧
    executeSelectOne deletedOnlyTable "T1" advFilter2 = .ok (some deletedRow) ∧
    executeSelect deletedOnlyTable "task" "T1"
      ⟨some advFilter2, none, PaginationArgs.none', ["*"]⟩ =
      .ok ⟨[deletedRow],
        ⟨false, false, some (encodeCursor "d1"), some (encodeCursor "d1")⟩, 1⟩ ∧
    executeSelectOne deletedOnlyTable "T1" [("id", FilterVal.lit "d1")] =
      .ok none :=
  ⟨rfl, rfl, rfl, rfl⟩

/-- Claim C9: soft delete is idempotent and writes only to live matching
rows.  Running the soft-delete operation again over an already soft-deleted
table changes no column, signals no error, and returns the same follow-up
read; and a row that does not match tenant, id and deletedAt IS NULL is
untouched by the update. -/
theorem c9_soft_delete_idempotent (table : List Row) (ws id now now2 : String) :
    executeSoftDelete (applySoftDelete table ws id now) ws id now2 =
      (applySoftDelete table ws id now,
       selectByIdIncludingDeleted (applySoftDelete table ws id now) ws id) ∧
    (∀ r : Row, isLiveMatch ws id r = false → softDeleteRow now ws id r = r) := by
  constructor
  · unfold executeSoftDelete
    rw [applySoftDelete_idem]
  · intro r h
    unfold softDeleteRow
    rw [if_neg (by rw [h]; exact Bool.false_ne_true)]

/-- Witness: C9 at the concrete mixed table. -/
theorem c9_soft_delete_idempotent_witness :
    executeSoftDelete (applySoftDelete mixedTable "T1" "t1" "2024-06-01T00:00:00.000Z")
        "T1" "t1" "2024-07-01T00:00:00.000Z" =
      (applySoftDelete mixedTable "T1" "t1" "2024-06-01T00:00:00.000Z",
       selectByIdIncludingDeleted
         (applySoftDelete mixedTable "T1" "t1" "2024-06-01T00:00:00.000Z") "T1" "t1") ∧
    softDeleteRow "2024-06-01T00:00:00.000Z" "T1" "t1" deletedRow = deletedRow :=
  ⟨(c9_soft_delete_idempotent mixedTable "T1" "t1" "2024-06-01T00:00:00.000Z"
      "2024-07-01T00:00:00.000Z").1,
   (c9_soft_delete_idempotent mixedTable "T1" "t1" "2024-06-01T00:00:00.000Z"
      "2024-07-01T00:00:00.000Z").2 deletedRow rfl⟩

/-- Claim C10: false of the code.  An undecodable pagination cursor is not
surfaced as a caller error: decodeCursor returns null from its try/catch,
executeSelect tests the decoded value for truthiness and silently proceeds
without the cursor, returning the first page again as a success (only
hasPreviousPage flips, since the raw after string is truthy). -/
theorem c10_invalid_cursor_silently_dropped :
    decodeCursor "@@@@" = none ∧
    executeSelect taskTable "task" "T1"
      ⟨none, some scenarioBOrder, ⟨some 2, none, none, some "@@@@"⟩, ["*"]⟩ =
      .ok ⟨[taskRow3, taskRow2],
        ⟨true, true, some (encodeCursor "t3"), some (encodeCursor "t2")⟩, 3⟩ :=
  ⟨rfl, rfl⟩
